import Mathlib

/-!
# Verification of the supernova simulation engine

Shallow embedding of `src/supernova_sim/numba_core.py`,
`src/supernova_sim/simulation.py` and (where it differs) `src/galaxy_sim.py`.

Modelling conventions:
* Machine floats (`np.float32` / Python `float`) are modelled by exact
  rationals `ℚ`; grid indices by `ℤ`; counters by `ℕ`.
* The numpy arrays `hit_count` / `domain_mask` are modelled as functions
  out of `ℤ × ℤ × ℤ` together with the explicit shape `(ngrid_xy, ngrid_xy,
  ngrid_z)`; array scans are folds over explicit index lists.
* The process-global pseudo-random state of the `random` and `np.random`
  modules is modelled by a `Glob` record holding, for each of the two
  streams, the seed installed by the last `seed(...)` call and the number of
  values drawn since.  The values actually produced by the library
  generators (Mersenne twisters, the Poisson inverse transform, and the
  `cos`/`sin`/`sqrt` transform of `run_supernova`, none of which are code of
  this repository) are supplied by an `Oracle` of value functions indexed by
  (seed, position); every theorem about the engine quantifies over the
  oracle.
-/

namespace Supernova

/-- `intRange a b` models Python's `range(a, b)` over `ℤ`. -/
def intRange (a b : ℤ) : List ℤ :=
  (List.range (b - a).toNat).map (fun t => a + Int.ofNat t)

/-- A 3-D integer cell index `(i, j, k)`. -/
abbrev Cell := ℤ × ℤ × ℤ

/-- The hit-count grid, as a total function on integer indices.  The real
array has shape `(ngrid_xy, ngrid_xy, ngrid_z)`; all reads and writes of the
source stay inside those bounds.  Cells are `np.int32` values
(`np.zeros(..., dtype=np.int32)`, `simulation.py` line 56), modelled as `ℤ`
with every write reduced by the explicit two's-complement wrap below. -/
abbrev HitGrid := ℤ → ℤ → ℤ → ℤ

/-- Two's-complement reduction of a value into the `int32` range
`[-2^31, 2^31)`: numpy's `int32` addition overflows silently, so
`2147483647 + 1` wraps to `-2147483648`. -/
def int32wrap (v : ℤ) : ℤ := (v + 2147483648) % 4294967296 - 2147483648

/-- Point update of a `HitGrid`: `hit_count[i, j, k] += 1` at exactly one
cell, with `int32` wraparound. -/
def bump (g : HitGrid) (i j k : ℤ) : HitGrid :=
  fun i' j' k' =>
    if i' = i ∧ j' = j ∧ k' = k then int32wrap (g i j k + 1) else g i' j' k'

/-- State threaded through the loops of `update_hit_count`: the mutated grid
together with the `new_hit` counter. -/
structure HC where
  hit : HitGrid
  newHit : ℕ

/-- `update_hit_count` from `src/supernova_sim/numba_core.py` (identical in
`src/galaxy_sim.py`).  The `domain_mask` parameter of the source is passed
but never read, so it is omitted; `ngrid_xy`/`ngrid_z` stand for
`hit_count.shape`.  Returns the final grid and the returned `new_hit`. -/
def update_hit_count (hit_count : HitGrid) (ngrid_xy ngrid_z : ℕ)
    (R h x0 y0 z0 : ℚ) (i_center j_center k_center : ℤ)
    (rx ry rz : ℤ) (dx dy dz bubble_r : ℚ) : HC :=
  let r2 := bubble_r * bubble_r
  (intRange (-rx) (rx + 1)).foldl (fun st di =>
    let i := i_center + di
    if i < 0 ∨ (ngrid_xy : ℤ) ≤ i then st
    else
      let x_cell := -R + (i : ℚ) * dx
      (intRange (-ry) (ry + 1)).foldl (fun st dj =>
        let j := j_center + dj
        if j < 0 ∨ (ngrid_xy : ℤ) ≤ j then st
        else
          let y_cell := -R + (j : ℚ) * dy
          if R * R < x_cell * x_cell + y_cell * y_cell then st
          else
            (intRange (-rz) (rz + 1)).foldl (fun st dk =>
              let k := k_center + dk
              if k < 0 ∨ (ngrid_z : ℤ) ≤ k then st
              else
                let z_cell := -h / 2 + (k : ℚ) * dz
                let dx_val := x_cell - x0
                let dy_val := y_cell - y0
                let dz_val := z_cell - z0
                if dx_val * dx_val + dy_val * dy_val + dz_val * dz_val ≤ r2 then
                  { hit := bump st.hit i j k,
                    newHit := st.newHit + (if st.hit i j k = 0 then 1 else 0) }
                else st) st) st)
    { hit := hit_count, newHit := 0 }

/-! ## Basic facts about `intRange` and index lists -/

theorem mem_intRange {a b v : ℤ} : v ∈ intRange a b ↔ a ≤ v ∧ v < b := by
  unfold intRange
  rw [List.mem_map]
  constructor
  · rintro ⟨t, ht, rfl⟩
    rw [List.mem_range] at ht
    simp only [Int.ofNat_eq_natCast]
    omega
  · rintro ⟨h1, h2⟩
    refine ⟨(v - a).toNat, ?_, by simp only [Int.ofNat_eq_natCast]; omega⟩
    rw [List.mem_range]
    omega

theorem nodup_intRange (a b : ℤ) : (intRange a b).Nodup := by
  unfold intRange
  refine List.Nodup.map ?_ (List.nodup_range _)
  intro s t h
  simp only [Int.ofNat_eq_natCast] at h
  omega

/-- The list of all cells of a 3-D index box, iterated in the same
row-major order as the nested loops of `update_hit_count`. -/
def tripleList (L1 L2 L3 : List ℤ) : List Cell :=
  L1.flatMap (fun i => L2.flatMap (fun j => L3.map (fun k => (i, j, k))))

theorem mem_tripleList {L1 L2 L3 : List ℤ} {c : Cell} :
    c ∈ tripleList L1 L2 L3 ↔ c.1 ∈ L1 ∧ c.2.1 ∈ L2 ∧ c.2.2 ∈ L3 := by
  obtain ⟨i, j, k⟩ := c
  simp only [tripleList, List.mem_flatMap, List.mem_map, Prod.mk.injEq]
  constructor
  · rintro ⟨i', hi', j', hj', k', hk', rfl, rfl, rfl⟩
    exact ⟨hi', hj', hk'⟩
  · rintro ⟨hi, hj, hk⟩
    exact ⟨i, hi, j, hj, k, hk, rfl, rfl, rfl⟩

theorem nodup_tripleList {L1 L2 L3 : List ℤ} (h1 : L1.Nodup) (h2 : L2.Nodup)
    (h3 : L3.Nodup) : (tripleList L1 L2 L3).Nodup := by
  refine List.nodup_flatMap.2 ⟨fun i _ => ?_, ?_⟩
  · refine List.nodup_flatMap.2 ⟨fun j _ => ?_, ?_⟩
    · exact h3.map (fun k k' h => by simpa using h)
    · refine h2.pairwise_of_forall_ne (fun j hj j' hj' hne => ?_)
      simp only [Function.onFun, List.disjoint_left, List.mem_map]
      rintro c ⟨k, hk, rfl⟩ ⟨k', hk', h⟩
      simp only [Prod.mk.injEq] at h
      exact hne h.2.1.symm
  · refine h1.pairwise_of_forall_ne (fun i hi i' hi' hne => ?_)
    simp only [Function.onFun, List.disjoint_left, List.mem_flatMap, List.mem_map]
    rintro c ⟨j, hj, k, hk, rfl⟩ ⟨j', hj', k', hk', h⟩
    simp only [Prod.mk.injEq] at h
    exact hne h.1.symm

theorem foldl_flatMap {α β σ : Type} (g : σ → β → σ) (f : α → List β)
    (L : List α) (st : σ) :
    (L.flatMap f).foldl g st = L.foldl (fun st a => (f a).foldl g st) st := by
  induction L generalizing st with
  | nil => rfl
  | cons a L ih =>
    rw [List.flatMap_cons, List.foldl_append, List.foldl_cons, ih]

theorem foldl_tripleList {σ : Type} (g : σ → Cell → σ) (L1 L2 L3 : List ℤ) (st : σ) :
    (tripleList L1 L2 L3).foldl g st
      = L1.foldl (fun st i =>
          L2.foldl (fun st j =>
            L3.foldl (fun st k => g st (i, j, k)) st) st) st := by
  unfold tripleList
  simp only [foldl_flatMap, List.foldl_map]

theorem foldl_eq_self {σ : Type} {g : σ → ℤ → σ} {L : List ℤ}
    (h : ∀ st d, d ∈ L → g st d = st) (st : σ) : L.foldl g st = st := by
  induction L generalizing st with
  | nil => rfl
  | cons d L ih =>
    rw [List.foldl_cons, h st d (by simp)]
    exact ih (fun st d hd => h st d (by simp [hd])) st

theorem foldl_congr_fun {α σ : Type} {f g : σ → α → σ} {L : List α}
    (h : ∀ st a, a ∈ L → f st a = g st a) (st : σ) :
    L.foldl f st = L.foldl g st := by
  induction L generalizing st with
  | nil => rfl
  | cons a L ih =>
    rw [List.foldl_cons, List.foldl_cons, h st a (by simp)]
    exact ih (fun st a ha => h st a (by simp [ha])) _

theorem intRange_map_add (a b c : ℤ) :
    (intRange a b).map (fun v => c + v) = intRange (c + a) (c + b) := by
  simp only [intRange, List.map_map]
  have : c + b - (c + a) = b - a := by ring
  rw [this]
  refine List.map_congr_left (fun t _ => ?_)
  simp only [Function.comp_apply]
  ring

/-! ## Characterisation of `update_hit_count`

The nested loops of `update_hit_count` are re-expressed as a single left
fold of a per-cell action `stampCell` over the scanned index box, and that
fold is characterised cell by cell. -/

/-- Parameters of one `update_hit_count` call (grid shape, geometry, event
center, spacings, bubble radius). -/
structure UP where
  ngrid_xy : ℕ
  ngrid_z : ℕ
  R : ℚ
  h : ℚ
  x0 : ℚ
  y0 : ℚ
  z0 : ℚ
  dx : ℚ
  dy : ℚ
  dz : ℚ
  bubble_r : ℚ

/-- The x coordinate of grid column `i` (`x_cell = -R + i * dx`). -/
def xcoord (P : UP) (i : ℤ) : ℚ := -P.R + (i : ℚ) * P.dx

/-- The y coordinate of grid row `j` (`y_cell = -R + j * dy`). -/
def ycoord (P : UP) (j : ℤ) : ℚ := -P.R + (j : ℚ) * P.dy

/-- The z coordinate of grid layer `k` (`z_cell = -h/2 + k * dz`). -/
def zcoord (P : UP) (k : ℤ) : ℚ := -P.h / 2 + (k : ℚ) * P.dz

/-- All conditions under which the body of the innermost loop of
`update_hit_count` increments cell `c`: in-bounds on all three axes, the
(x,y) disk re-check, and the squared-distance test against `bubble_r²`.
This is exactly the increment condition claimed by the spec (it does not
mention the scanned box). -/
def cellPass (P : UP) (c : Cell) : Prop :=
  0 ≤ c.1 ∧ c.1 < (P.ngrid_xy : ℤ) ∧
  0 ≤ c.2.1 ∧ c.2.1 < (P.ngrid_xy : ℤ) ∧
  0 ≤ c.2.2 ∧ c.2.2 < (P.ngrid_z : ℤ) ∧
  xcoord P c.1 * xcoord P c.1 + ycoord P c.2.1 * ycoord P c.2.1 ≤ P.R * P.R ∧
  (xcoord P c.1 - P.x0) * (xcoord P c.1 - P.x0)
    + (ycoord P c.2.1 - P.y0) * (ycoord P c.2.1 - P.y0)
    + (zcoord P c.2.2 - P.z0) * (zcoord P c.2.2 - P.z0) ≤ P.bubble_r * P.bubble_r

instance (P : UP) (c : Cell) : Decidable (cellPass P c) := by
  unfold cellPass
  infer_instance

/-- The per-cell action of the loop body: increment the cell and count a
first-time hit when every check passes, otherwise do nothing. -/
def stampCell (P : UP) (st : HC) (c : Cell) : HC :=
  if cellPass P c then
    { hit := bump st.hit c.1 c.2.1 c.2.2,
      newHit := st.newHit + (if st.hit c.1 c.2.1 c.2.2 = 0 then 1 else 0) }
  else st

/-- The index box scanned by `update_hit_count`, as a cell list. -/
def boxCells (ic jc kc rx ry rz : ℤ) : List Cell :=
  tripleList (intRange (ic - rx) (ic + rx + 1)) (intRange (jc - ry) (jc + ry + 1))
    (intRange (kc - rz) (kc + rz + 1))

theorem mem_boxCells {ic jc kc rx ry rz : ℤ} {c : Cell} :
    c ∈ boxCells ic jc kc rx ry rz
      ↔ (ic - rx ≤ c.1 ∧ c.1 ≤ ic + rx) ∧ (jc - ry ≤ c.2.1 ∧ c.2.1 ≤ jc + ry)
          ∧ (kc - rz ≤ c.2.2 ∧ c.2.2 ≤ kc + rz) := by
  unfold boxCells
  rw [mem_tripleList]
  simp only [mem_intRange]
  omega

theorem nodup_boxCells (ic jc kc rx ry rz : ℤ) : (boxCells ic jc kc rx ry rz).Nodup :=
  nodup_tripleList (nodup_intRange _ _) (nodup_intRange _ _) (nodup_intRange _ _)

/-- `update_hit_count` is the left fold of `stampCell` over the scanned
box: the nested loops, with their short-circuiting bounds and disk checks,
perform exactly the per-cell checked action on each box cell in order. -/
theorem update_hit_count_eq_stamp (hit_count : HitGrid) (P : UP)
    (ic jc kc rx ry rz : ℤ) :
    update_hit_count hit_count P.ngrid_xy P.ngrid_z P.R P.h P.x0 P.y0 P.z0
        ic jc kc rx ry rz P.dx P.dy P.dz P.bubble_r
      = (boxCells ic jc kc rx ry rz).foldl (stampCell P) ⟨hit_count, 0⟩ := by
  unfold boxCells
  rw [foldl_tripleList]
  have hx : intRange (ic - rx) (ic + rx + 1) = (intRange (-rx) (rx + 1)).map (fun v => ic + v) := by
    rw [intRange_map_add]
    congr 1
    ring
  have hy : intRange (jc - ry) (jc + ry + 1) = (intRange (-ry) (ry + 1)).map (fun v => jc + v) := by
    rw [intRange_map_add]
    congr 1
    ring
  have hz : intRange (kc - rz) (kc + rz + 1) = (intRange (-rz) (rz + 1)).map (fun v => kc + v) := by
    rw [intRange_map_add]
    congr 1
    ring
  rw [hx, hy, hz]
  simp only [List.foldl_map]
  unfold update_hit_count
  refine foldl_congr_fun (fun st di _ => ?_) _
  by_cases hi : ic + di < 0 ∨ (P.ngrid_xy : ℤ) ≤ ic + di
  · rw [if_pos hi]
    refine (foldl_eq_self (fun st dj _ => ?_) st).symm
    refine foldl_eq_self (fun st dk _ => ?_) st
    unfold stampCell
    rw [if_neg]
    unfold cellPass
    dsimp only
    omega
  · rw [if_neg hi]
    refine foldl_congr_fun (fun st dj _ => ?_) _
    by_cases hj : jc + dj < 0 ∨ (P.ngrid_xy : ℤ) ≤ jc + dj
    · rw [if_pos hj]
      refine (foldl_eq_self (fun st dk _ => ?_) st).symm
      unfold stampCell
      rw [if_neg]
      unfold cellPass
      dsimp only
      omega
    · rw [if_neg hj]
      by_cases hd : P.R * P.R
          < (-P.R + (ic + di : ℤ) * P.dx) * (-P.R + (ic + di : ℤ) * P.dx)
            + (-P.R + (jc + dj : ℤ) * P.dy) * (-P.R + (jc + dj : ℤ) * P.dy)
      · rw [if_pos hd]
        refine (foldl_eq_self (fun st dk _ => ?_) st).symm
        unfold stampCell
        rw [if_neg]
        unfold cellPass xcoord ycoord
        dsimp only
        rintro ⟨-, -, -, -, -, -, hle, -⟩
        exact absurd hd (not_lt.2 hle)
      · rw [if_neg hd]
        refine foldl_congr_fun (fun st dk _ => ?_) _
        by_cases hk : kc + dk < 0 ∨ (P.ngrid_z : ℤ) ≤ kc + dk
        · rw [if_pos hk]
          unfold stampCell
          rw [if_neg]
          unfold cellPass
          dsimp only
          omega
        · rw [if_neg hk]
          by_cases hdist : (-P.R + (ic + di : ℤ) * P.dx - P.x0) * (-P.R + (ic + di : ℤ) * P.dx - P.x0)
              + (-P.R + (jc + dj : ℤ) * P.dy - P.y0) * (-P.R + (jc + dj : ℤ) * P.dy - P.y0)
              + (-P.h / 2 + (kc + dk : ℤ) * P.dz - P.z0) * (-P.h / 2 + (kc + dk : ℤ) * P.dz - P.z0)
              ≤ P.bubble_r * P.bubble_r
          · rw [if_pos hdist]
            have hpass : cellPass P (ic + di, jc + dj, kc + dk) := by
              unfold cellPass xcoord ycoord zcoord
              dsimp only
              exact ⟨by omega, by omega, by omega, by omega, by omega, by omega,
                not_lt.1 hd, hdist⟩
            unfold stampCell
            rw [if_pos hpass]
          · rw [if_neg hdist]
            unfold stampCell
            rw [if_neg]
            unfold cellPass xcoord ycoord zcoord
            dsimp only
            rintro ⟨-, -, -, -, -, -, -, hle⟩
            exact hdist hle

theorem stampCell_hit_ne {P : UP} {st : HC} {d c : Cell} (hne : c ≠ d) :
    (stampCell P st d).hit c.1 c.2.1 c.2.2 = st.hit c.1 c.2.1 c.2.2 := by
  unfold stampCell
  split
  · dsimp only [bump]
    rw [if_neg]
    rintro ⟨h1, h2, h3⟩
    exact hne (Prod.ext h1 (Prod.ext h2 h3))
  · rfl

/-- Cell-wise effect of folding `stampCell` over a duplicate-free cell
list: each listed cell passing all checks is sent to the int32-wrapped
successor of its value, every other cell is untouched. -/
theorem stampFold_hit (P : UP) {L : List Cell} (hL : L.Nodup) (st : HC) (c : Cell) :
    (L.foldl (stampCell P) st).hit c.1 c.2.1 c.2.2
      = if c ∈ L ∧ cellPass P c then int32wrap (st.hit c.1 c.2.1 c.2.2 + 1)
        else st.hit c.1 c.2.1 c.2.2 := by
  induction L generalizing st with
  | nil => simp
  | cons d L ih =>
    rw [List.foldl_cons, ih hL.of_cons]
    by_cases hcd : c = d
    · subst hcd
      have hcL : c ∉ L := (List.nodup_cons.1 hL).1
      by_cases hp : cellPass P c
      · unfold stampCell
        rw [if_pos hp]
        dsimp only [bump]
        simp [hcL, hp]
      · unfold stampCell
        rw [if_neg hp]
        simp [hp]
    · rw [stampCell_hit_ne hcd]
      by_cases hcL : c ∈ L <;> simp [hcL, hcd]

/-- The `new_hit` value of the fold: the number of listed cells that pass
all checks and whose value in the initial grid is zero. -/
theorem stampFold_newHit (P : UP) {L : List Cell} (hL : L.Nodup) (st : HC) :
    (L.foldl (stampCell P) st).newHit
      = st.newHit
        + (L.filter (fun c =>
            decide (cellPass P c ∧ st.hit c.1 c.2.1 c.2.2 = 0))).length := by
  induction L generalizing st with
  | nil => simp
  | cons d L ih =>
    rw [List.foldl_cons, ih hL.of_cons]
    have hfilter : L.filter (fun c =>
          decide (cellPass P c ∧ (stampCell P st d).hit c.1 c.2.1 c.2.2 = 0))
        = L.filter (fun c => decide (cellPass P c ∧ st.hit c.1 c.2.1 c.2.2 = 0)) := by
      refine List.filter_congr (fun c hc => ?_)
      have hcd : c ≠ d := fun h => (List.nodup_cons.1 hL).1 (h ▸ hc)
      rw [stampCell_hit_ne hcd]
    rw [hfilter, List.filter_cons]
    by_cases hp : cellPass P d ∧ st.hit d.1 d.2.1 d.2.2 = 0
    · have : (stampCell P st d).newHit = st.newHit + 1 := by
        unfold stampCell
        rw [if_pos hp.1]
        dsimp only
        rw [if_pos hp.2]
      rw [this]
      simp only [decide_eq_true hp, if_pos]
      simp
      omega
    · have : (stampCell P st d).newHit = st.newHit := by
        unfold stampCell
        by_cases hp1 : cellPass P d
        · rw [if_pos hp1]
          dsimp only
          rw [if_neg (fun h0 => hp ⟨hp1, h0⟩)]
          omega
        · rw [if_neg hp1]
      rw [this]
      simp only [decide_eq_false hp, Bool.false_eq_true, if_false]

/-! ## Window containment and the C1 theorem -/

/-- All cells of the full grid, in row-major order. -/
def gridCells (n nz : ℕ) : List Cell :=
  tripleList (intRange 0 (n : ℤ)) (intRange 0 (n : ℤ)) (intRange 0 (nz : ℤ))

theorem mem_gridCells {n nz : ℕ} {c : Cell} :
    c ∈ gridCells n nz
      ↔ 0 ≤ c.1 ∧ c.1 < (n : ℤ) ∧ 0 ≤ c.2.1 ∧ c.2.1 < (n : ℤ)
          ∧ 0 ≤ c.2.2 ∧ c.2.2 < (nz : ℤ) := by
  unfold gridCells
  rw [mem_tripleList]
  simp only [mem_intRange]
  omega

theorem nodup_gridCells (n nz : ℕ) : (gridCells n nz).Nodup :=
  nodup_tripleList (nodup_intRange _ _) (nodup_intRange _ _) (nodup_intRange _ _)

/-- One axis of the window-containment argument: if the rounded center
index `ic` is within 1/2 of the exact fractional index `u / d` and the cell
coordinate `i * d` is within `r` of `u`, then `i` lies within
`ceil(r / d)` steps of `ic`. -/
theorem axis_cover {d r : ℚ} (hd : 0 < d) {u : ℚ} {i ic : ℤ}
    (hic : |(ic : ℚ) - u / d| ≤ 1 / 2)
    (hx : |(i : ℚ) * d - u| ≤ r) :
    ic - ⌈r / d⌉ ≤ i ∧ i ≤ ic + ⌈r / d⌉ := by
  have hdiv : |(i : ℚ) - u / d| ≤ r / d := by
    have heq : (i : ℚ) - u / d = ((i : ℚ) * d - u) / d := by
      field_simp
    rw [heq, abs_div, abs_of_pos hd]
    gcongr
  have htri : |(i : ℚ) - (ic : ℚ)| ≤ r / d + 1 / 2 := by
    have h1 : (i : ℚ) - (ic : ℚ) = ((i : ℚ) - u / d) + (u / d - (ic : ℚ)) := by ring
    rw [h1]
    refine (abs_add _ _).trans (add_le_add hdiv ?_)
    rwa [abs_sub_comm]
  have habs : |i - ic| ≤ ⌈r / d⌉ := by
    by_contra hcon
    push_neg at hcon
    have h1 : ((⌈r / d⌉ : ℚ) + 1) ≤ |(i : ℚ) - (ic : ℚ)| := by
      have h2 : ⌈r / d⌉ + 1 ≤ |i - ic| := hcon
      have h3 : ((⌈r / d⌉ + 1 : ℤ) : ℚ) ≤ ((|i - ic| : ℤ) : ℚ) := by exact_mod_cast h2
      rw [Int.cast_abs] at h3
      push_cast at h3 ⊢
      exact h3
    have h2 : (r / d : ℚ) ≤ ⌈r / d⌉ := Int.le_ceil _
    linarith
  rw [abs_le] at habs
  omega

/-- Every cell satisfying all the increment conditions lies inside the
scanned index box of half-widths `ceil(bubble_r/dx)`, `ceil(bubble_r/dy)`,
`ceil(bubble_r/dz)` around any center index within 1/2 of the exact
(fractional) index of the event center. -/
theorem box_contains (P : UP) {ic jc kc : ℤ}
    (hdx : 0 < P.dx) (hdy : 0 < P.dy) (hdz : 0 < P.dz) (hbr : 0 ≤ P.bubble_r)
    (hic : |(ic : ℚ) - (P.x0 + P.R) / P.dx| ≤ 1 / 2)
    (hjc : |(jc : ℚ) - (P.y0 + P.R) / P.dy| ≤ 1 / 2)
    (hkc : |(kc : ℚ) - (P.z0 + P.h / 2) / P.dz| ≤ 1 / 2)
    {c : Cell} (hc : cellPass P c) :
    c ∈ boxCells ic jc kc ⌈P.bubble_r / P.dx⌉ ⌈P.bubble_r / P.dy⌉ ⌈P.bubble_r / P.dz⌉ := by
  obtain ⟨-, -, -, -, -, -, -, hdist⟩ := hc
  simp only [xcoord, ycoord, zcoord] at hdist
  have hy0 := mul_self_nonneg (-P.R + (c.2.1 : ℚ) * P.dy - P.y0)
  have hz0 := mul_self_nonneg (-P.h / 2 + (c.2.2 : ℚ) * P.dz - P.z0)
  have hx0 := mul_self_nonneg (-P.R + (c.1 : ℚ) * P.dx - P.x0)
  have hx2 : ((c.1 : ℚ) * P.dx - (P.x0 + P.R)) ^ 2 ≤ P.bubble_r ^ 2 := by
    nlinarith [hdist, hy0, hz0]
  have hy2 : ((c.2.1 : ℚ) * P.dy - (P.y0 + P.R)) ^ 2 ≤ P.bubble_r ^ 2 := by
    nlinarith [hdist, hx0, hz0]
  have hz2 : ((c.2.2 : ℚ) * P.dz - (P.z0 + P.h / 2)) ^ 2 ≤ P.bubble_r ^ 2 := by
    nlinarith [hdist, hx0, hy0]
  have habsx := abs_le_of_sq_le_sq hx2 hbr
  have habsy := abs_le_of_sq_le_sq hy2 hbr
  have habsz := abs_le_of_sq_le_sq hz2 hbr
  rw [mem_boxCells]
  exact ⟨axis_cover hdx hic habsx, axis_cover hdy hjc habsy, axis_cover hdz hkc habsz⟩

theorem length_filter_eq_of_iff {α : Type} [DecidableEq α] {L1 L2 : List α}
    {p q : α → Bool} (h1 : L1.Nodup) (h2 : L2.Nodup)
    (hpq : ∀ x, (p x = true ∧ x ∈ L1) ↔ (q x = true ∧ x ∈ L2)) :
    (L1.filter p).length = (L2.filter q).length := by
  rw [← List.toFinset_card_of_nodup (h1.filter p),
    ← List.toFinset_card_of_nodup (h2.filter q)]
  congr 1
  ext x
  simp only [List.mem_toFinset, List.mem_filter]
  constructor
  · rintro ⟨hx, hp⟩
    obtain ⟨hq, hx2⟩ := (hpq x).1 ⟨hp, hx⟩
    exact ⟨hx2, hq⟩
  · rintro ⟨hx, hq⟩
    obtain ⟨hp, hx2⟩ := (hpq x).2 ⟨hq, hx⟩
    exact ⟨hx2, hp⟩

/-- The `update_hit_count` call as issued by `run_supernova`, with the
window extents `rx = ceil(bubble_r / dx)`, `ry = ceil(bubble_r / dy)`,
`rz = ceil(bubble_r / dz)` precomputed at construction
(`simulation.py`, lines 66-68). -/
def update_call (hit_count : HitGrid) (P : UP) (ic jc kc : ℤ) : HC :=
  update_hit_count hit_count P.ngrid_xy P.ngrid_z P.R P.h P.x0 P.y0 P.z0 ic jc kc
    ⌈P.bubble_r / P.dx⌉ ⌈P.bubble_r / P.dy⌉ ⌈P.bubble_r / P.dz⌉ P.dx P.dy P.dz P.bubble_r

/-- Claim C1, amended: for every event center `(x0, y0, z0)`,
`update_hit_count` sends every grid cell whose indices lie within grid
bounds, whose (x,y) position satisfies `x_cell² + y_cell² ≤ R²`, and whose
center lies within Euclidean distance `bubble_r` of the event center to
the int32-wrapped successor of its value — an increment by exactly 1
except at `2147483647`, where the `np.int32` cell silently wraps to
`-2147483648` — and touches no other cell (conjunct 1); it returns
exactly the number of cells whose value transitioned from zero to nonzero
in the call (conjunct 2); and the scanned index box of half-widths
`rx = ceil(bubble_r/dx)`, `ry = ceil(bubble_r/dy)`, `rz = ceil(bubble_r/dz)`
around the rounded center index always contains every such cell
(conjunct 3). -/
theorem C1_update_hit_count (hit_count : HitGrid) (P : UP) (ic jc kc : ℤ)
    (hdx : 0 < P.dx) (hdy : 0 < P.dy) (hdz : 0 < P.dz) (hbr : 0 ≤ P.bubble_r)
    (hic : |(ic : ℚ) - (P.x0 + P.R) / P.dx| ≤ 1 / 2)
    (hjc : |(jc : ℚ) - (P.y0 + P.R) / P.dy| ≤ 1 / 2)
    (hkc : |(kc : ℚ) - (P.z0 + P.h / 2) / P.dz| ≤ 1 / 2) :
    (∀ c : Cell,
        (update_call hit_count P ic jc kc).hit c.1 c.2.1 c.2.2
          = if cellPass P c then int32wrap (hit_count c.1 c.2.1 c.2.2 + 1)
            else hit_count c.1 c.2.1 c.2.2)
      ∧ (update_call hit_count P ic jc kc).newHit
          = ((gridCells P.ngrid_xy P.ngrid_z).filter (fun c =>
              decide (hit_count c.1 c.2.1 c.2.2 = 0
                ∧ (update_call hit_count P ic jc kc).hit c.1 c.2.1 c.2.2 ≠ 0))).length
      ∧ ∀ c : Cell, cellPass P c →
          c ∈ boxCells ic jc kc ⌈P.bubble_r / P.dx⌉ ⌈P.bubble_r / P.dy⌉ ⌈P.bubble_r / P.dz⌉ := by
  have hbox : ∀ c : Cell, cellPass P c →
      c ∈ boxCells ic jc kc ⌈P.bubble_r / P.dx⌉ ⌈P.bubble_r / P.dy⌉ ⌈P.bubble_r / P.dz⌉ :=
    fun c hc => box_contains P hdx hdy hdz hbr hic hjc hkc hc
  have hflat : update_call hit_count P ic jc kc
      = (boxCells ic jc kc ⌈P.bubble_r / P.dx⌉ ⌈P.bubble_r / P.dy⌉
          ⌈P.bubble_r / P.dz⌉).foldl (stampCell P) ⟨hit_count, 0⟩ :=
    update_hit_count_eq_stamp hit_count P ic jc kc _ _ _
  have hhit : ∀ c : Cell,
      (update_call hit_count P ic jc kc).hit c.1 c.2.1 c.2.2
        = if cellPass P c then int32wrap (hit_count c.1 c.2.1 c.2.2 + 1)
          else hit_count c.1 c.2.1 c.2.2 := by
    intro c
    rw [hflat, stampFold_hit P (nodup_boxCells _ _ _ _ _ _) _ c]
    by_cases hp : cellPass P c
    · simp [hp, hbox c hp]
    · simp [hp]
  refine ⟨hhit, ?_, hbox⟩
  rw [hflat, stampFold_newHit P (nodup_boxCells _ _ _ _ _ _)]
  dsimp only
  rw [Nat.zero_add]
  refine length_filter_eq_of_iff (nodup_boxCells _ _ _ _ _ _)
    (nodup_gridCells _ _) (fun c => ?_)
  simp only [decide_eq_true_eq]
  constructor
  · rintro ⟨⟨hp, h0⟩, hmem⟩
    refine ⟨⟨h0, ?_⟩, ?_⟩
    · rw [← hflat, hhit c, if_pos hp, h0]
      decide
    · rw [mem_gridCells]
      obtain ⟨h1, h2, h3, h4, h5, h6, -, -⟩ := hp
      exact ⟨h1, h2, h3, h4, h5, h6⟩
  · rintro ⟨⟨h0, hne⟩, hmem⟩
    by_cases hp : cellPass P c
    · exact ⟨⟨hp, h0⟩, hbox c hp⟩
    · exfalso
      apply hne
      rw [← hflat, hhit c, if_neg hp, h0]

end Supernova

namespace Supernova

/-! ## The simulation engine

`SupernovaSimulation` from `src/supernova_sim/simulation.py`.  The
`random` / `np.random` module state is *process-global* in the source
(`random.seed(seed)`, `np.random.seed(seed)` in `__init__`), so it is a
separate `Glob` value threaded beside the engine state, not a field of it. -/

/-- One civilization record (the per-civilization dict). -/
structure Civ where
  id : ℕ
  x : ℚ
  y : ℚ
  z : ℚ
  birth_interval : ℕ
  extinct : Bool
  extinction_interval : Option ℕ
deriving DecidableEq

/-- Process-global pseudo-random state of the two library streams used by
the source (`random` for uniforms, `np.random` for Poisson draws): the seed
installed by the last `seed(...)` call and the number of values drawn from
the stream since. -/
structure Glob where
  pySeed : ℕ
  pyPos : ℕ
  npSeed : ℕ
  npPos : ℕ
deriving DecidableEq

/-- Value oracle for the library generators, which are not code of this
repository: `poisson mean seed pos` is the value of `np.random.poisson(mean)`
drawn at stream position `pos` under `seed`; `sample R h seed pos` is the
point `(x0, y0, z0)` produced by the three `random.uniform` draws at
positions `pos, pos+1, pos+2` composed with the `r = R*sqrt(u)`,
`(r*cos θ, r*sin θ)` transform of `run_supernova` /
`generate_civilization`.  Every engine theorem quantifies over the
oracle. -/
structure Oracle where
  poisson : ℚ → ℕ → ℕ → ℕ
  sample : ℚ → ℚ → ℕ → ℕ → ℚ × ℚ × ℚ

/-- All attributes of a constructed `SupernovaSimulation`. -/
structure SimState where
  num_intervals : ℕ
  interval_years : ℚ
  rate_per_year : ℚ
  R : ℚ
  h : ℚ
  bubble_r : ℚ
  ngrid_xy : ℕ
  ngrid_z : ℕ
  max_threshold : ℕ
  simulate_civilizations : Bool
  civ_emergence_rate : ℚ
  civ_per_interval : ℚ
  current_interval : ℕ
  dx : ℚ
  dy : ℚ
  dz : ℚ
  total_domain_cells : ℕ
  hit_count : HitGrid
  supernovae : ℕ
  coverage_history : ℕ → List ℚ
  civilizations : List Civ
  next_civ_id : ℕ
  civ_history : List ℕ
  rx : ℤ
  ry : ℤ
  rz : ℤ
  mean_events : ℚ
  intervals : List ℕ
deriving Inhabited

/-- Constructor arguments of `SupernovaSimulation.__init__` (defaults as in
the source). -/
structure Config where
  num_intervals : ℕ := 500
  interval_years : ℚ := 1000000
  rate_per_year : ℚ := 1 / 50
  R : ℚ := 50000
  h : ℚ := 1000
  bubble_r : ℚ := 50
  ngrid_xy : ℕ := 200
  ngrid_z : ℕ := 50
  max_threshold : ℕ := 5
  simulate_civilizations : Bool := true
  civ_emergence_rate : ℚ := 1 / 10
  seed : Option ℕ := some 42

/-- `random.seed(seed); np.random.seed(seed)` when `seed is not None`:
both *global* streams are re-seeded and their positions reset. -/
def seedGlobals (seed : Option ℕ) (g : Glob) : Glob :=
  match seed with
  | some s => { pySeed := s, pyPos := 0, npSeed := s, npPos := 0 }
  | none => g

/-- The in-disk test of the domain mask for cell `c` of the grid
(`X2**2 + Y2**2 <= R**2` on the `linspace` coordinates `-R + i*dx`). -/
def inDomain (R dx dy : ℚ) (c : Cell) : Prop :=
  (-R + (c.1 : ℚ) * dx) * (-R + (c.1 : ℚ) * dx)
    + (-R + (c.2.1 : ℚ) * dy) * (-R + (c.2.1 : ℚ) * dy) ≤ R * R

instance (R dx dy : ℚ) (c : Cell) : Decidable (inDomain R dx dy c) := by
  unfold inDomain
  infer_instance

/-- `SupernovaSimulation.__init__`.  Python failure points are made
explicit: reading `x[1]` (to form `dx = x[1] - x[0]`) raises `IndexError`
when a grid axis has fewer than 2 points, and `math.ceil(bubble_r / dx)`
raises `ZeroDivisionError` when a spacing is zero.  The seeding of the
global streams happens first, before any failure. -/
def init (cfg : Config) (g : Glob) : Except String SimState × Glob :=
  let g' := seedGlobals cfg.seed g
  if cfg.ngrid_xy < 2 then
    (Except.error "IndexError: x[1] out of bounds", g')
  else if cfg.ngrid_z < 2 then
    (Except.error "IndexError: z[1] out of bounds", g')
  else
    let dx : ℚ := 2 * cfg.R / ((cfg.ngrid_xy : ℚ) - 1)
    let dy : ℚ := 2 * cfg.R / ((cfg.ngrid_xy : ℚ) - 1)
    let dz : ℚ := cfg.h / ((cfg.ngrid_z : ℚ) - 1)
    if dx = 0 then
      (Except.error "ZeroDivisionError: bubble_r / dx", g')
    else if dz = 0 then
      (Except.error "ZeroDivisionError: bubble_r / dz", g')
    else
      (Except.ok {
        num_intervals := cfg.num_intervals
        interval_years := cfg.interval_years
        rate_per_year := cfg.rate_per_year
        R := cfg.R
        h := cfg.h
        bubble_r := cfg.bubble_r
        ngrid_xy := cfg.ngrid_xy
        ngrid_z := cfg.ngrid_z
        max_threshold := cfg.max_threshold
        simulate_civilizations := cfg.simulate_civilizations
        civ_emergence_rate := cfg.civ_emergence_rate
        civ_per_interval := cfg.civ_emergence_rate * cfg.interval_years
        current_interval := 0
        dx := dx
        dy := dy
        dz := dz
        total_domain_cells :=
          ((gridCells cfg.ngrid_xy cfg.ngrid_z).filter
            (fun c => decide (inDomain cfg.R dx dy c))).length
        hit_count := fun _ _ _ => 0
        supernovae := 0
        coverage_history := fun _ => []
        civilizations := []
        next_civ_id := 0
        civ_history := []
        rx := ⌈cfg.bubble_r / dx⌉
        ry := ⌈cfg.bubble_r / dy⌉
        rz := ⌈cfg.bubble_r / dz⌉
        mean_events := cfg.rate_per_year * cfg.interval_years
        intervals := [] }, g')

/-- `run_supernova` from `numba_core.py`: sample an event point (3 global
uniform draws), round the center to grid indices, stamp the bubble.
Returns the event center together with the updated state and stream.
(The local `supernovae += 1` of the source has no effect on the caller and
is dropped; the caller increments `self.supernovae`.) -/
def run_supernova (o : Oracle) (s : SimState) (g : Glob) :
    (ℚ × ℚ × ℚ) × SimState × Glob :=
  let p := o.sample s.R s.h g.pySeed g.pyPos
  let g' := { g with pyPos := g.pyPos + 3 }
  let x0 := p.1
  let y0 := p.2.1
  let z0 := p.2.2
  let i_center := round ((x0 + s.R) / s.dx)
  let j_center := round ((y0 + s.R) / s.dy)
  let k_center := round ((z0 + s.h / 2) / s.dz)
  let res := update_hit_count s.hit_count s.ngrid_xy s.ngrid_z s.R s.h x0 y0 z0
    i_center j_center k_center s.rx s.ry s.rz s.dx s.dy s.dz s.bubble_r
  ((x0, y0, z0), { s with hit_count := res.hit }, g')

/-- The per-event extinction scan of `step` (`simulation.py`, lines 90-100):
every living civilization within `bubble_r` of the event center becomes
extinct with `extinction_interval = current_interval`. -/
def extinguish (bubble_r x0 y0 z0 : ℚ) (interval : ℕ) (civs : List Civ) : List Civ :=
  let br2 := bubble_r * bubble_r
  civs.map (fun civ =>
    if civ.extinct then civ
    else
      let dx_civ := civ.x - x0
      let dy_civ := civ.y - y0
      let dz_civ := civ.z - z0
      if dx_civ * dx_civ + dy_civ * dy_civ + dz_civ * dz_civ ≤ br2 then
        { civ with extinct := true, extinction_interval := some interval }
      else civ)

/-- One iteration of the per-event loop of `step`: run the supernova,
increment the cumulative counter, and (when tracking is enabled) apply the
extinction scan against the current civilization list. -/
def doEvent (o : Oracle) (sg : SimState × Glob) : SimState × Glob :=
  let r := run_supernova o sg.1 sg.2
  let x0 := r.1.1
  let y0 := r.1.2.1
  let z0 := r.1.2.2
  let s := r.2.1
  let g := r.2.2
  let s := { s with supernovae := s.supernovae + 1 }
  let s :=
    if s.simulate_civilizations then
      { s with civilizations :=
          extinguish s.bubble_r x0 y0 z0 s.current_interval s.civilizations }
    else s
  (s, g)

/-- `generate_civilization` from `numba_core.py`: 3 global uniform draws
giving a point, paired with the next id. -/
def generate_civilization (o : Oracle) (next_civ_id : ℕ) (R h : ℚ) (g : Glob) :
    (ℕ × ℚ × ℚ × ℚ) × Glob :=
  let p := o.sample R h g.pySeed g.pyPos
  ((next_civ_id, p.1, p.2.1, p.2.2), { g with pyPos := g.pyPos + 3 })

/-- One iteration of the spawn loop of `step`: append a fresh civilization
born in the current interval and advance `next_civ_id`. -/
def spawnCiv (o : Oracle) (sg : SimState × Glob) : SimState × Glob :=
  let s := sg.1
  let q := generate_civilization o s.next_civ_id s.R s.h sg.2
  ({ s with
      civilizations := s.civilizations ++
        [{ id := q.1.1, x := q.1.2.1, y := q.1.2.2.1, z := q.1.2.2.2,
           birth_interval := s.current_interval, extinct := false,
           extinction_interval := none }]
      next_civ_id := s.next_civ_id + 1 }, q.2)

/-- `sum(1 for civ in self.civilizations if not civ["extinct"])`. -/
def living_count (civs : List Civ) : ℕ := (civs.filter (fun c => !c.extinct)).length

/-- `np.count_nonzero(self.hit_count >= threshold)` — over the whole grid,
not only the domain cells. -/
def countAtLeast (s : SimState) (t : ℕ) : ℕ :=
  ((gridCells s.ngrid_xy s.ngrid_z).filter
    (fun c => decide ((t : ℤ) ≤ s.hit_count c.1 c.2.1 c.2.2))).length

/-- `covered / total_domain_cells if total_domain_cells else 0.0`
(`simulation.py`, line 124). -/
def coverageFrac (s : SimState) (t : ℕ) : ℚ :=
  if s.total_domain_cells ≠ 0 then
    (countAtLeast s t : ℚ) / (s.total_domain_cells : ℚ)
  else 0

/-- Thresholds `range(1, max_threshold + 1)`. -/
def thresholds (max_threshold : ℕ) : List ℕ :=
  (List.range max_threshold).map (fun t => t + 1)

/-- One iteration of the coverage loop of `step` (`simulation.py`, lines
122-126): compute the fraction for threshold `th`, append it to that
threshold's history and to the result dict. -/
def covStepF (acc : List (ℕ × ℚ) × SimState) (th : ℕ) : List (ℕ × ℚ) × SimState :=
  let frac := coverageFrac acc.2 th
  (acc.1 ++ [(th, frac)],
    { acc.2 with coverage_history := fun t =>
        if t = th then acc.2.coverage_history th ++ [frac]
        else acc.2.coverage_history t })

/-- The coverage loop of `step` (`simulation.py`, lines 121-126): build the
per-threshold coverage dict (as an ordered list) and append each fraction
to that threshold's history. -/
def coveragePhase (s : SimState) : List (ℕ × ℚ) × SimState :=
  (thresholds s.max_threshold).foldl covStepF ([], s)

/-- The dict returned by a successful `SupernovaSimulation.step` call.
`civ_count` is an `Option` to record presence of a (non-`None`) value:
`simulation.py` always supplies an `int`, so this engine always produces
`some`. -/
structure StepRes where
  interval : ℕ
  coverage : List (ℕ × ℚ)
  civ_count : Option ℕ
  supernovae : ℕ
deriving DecidableEq

/-- `SupernovaSimulation.step` from `src/supernova_sim/simulation.py`.
Returns `none` for the terminal `return False`. -/
def step (o : Oracle) (s : SimState) (g : Glob) : Option StepRes × SimState × Glob :=
  if s.num_intervals ≤ s.current_interval then (none, s, g)
  else
    let num_events := o.poisson s.mean_events g.npSeed g.npPos
    let g := { g with npPos := g.npPos + 1 }
    let sg := (doEvent o)^[num_events] (s, g)
    let sg :=
      if sg.1.simulate_civilizations then
        let num_new_civs := o.poisson sg.1.civ_per_interval sg.2.npSeed sg.2.npPos
        let g2 := { sg.2 with npPos := sg.2.npPos + 1 }
        let sg2 := (spawnCiv o)^[num_new_civs] (sg.1, g2)
        ({ sg2.1 with
            civ_history := sg2.1.civ_history ++ [living_count sg2.1.civilizations] },
          sg2.2)
      else sg
    let covs := coveragePhase sg.1
    let s1 := covs.2
    let s2 := { s1 with current_interval := s1.current_interval + 1 }
    let s3 := { s2 with intervals := s2.intervals ++ [s2.current_interval] }
    (some {
      interval := s3.current_interval
      coverage := covs.1
      civ_count := some (if s3.simulate_civilizations && !s3.civ_history.isEmpty
        then s3.civ_history.getLast?.getD 0 else 0)
      supernovae := s3.supernovae }, s3, sg.2)

/-! ## The `galaxy_sim.py` variant of `step`

`src/galaxy_sim.py` duplicates the engine; its `step` differs from the
package version in exactly two places: the coverage division
`covered / self.total_domain_cells` has no zero guard (Python raises
`ZeroDivisionError`), and `civ_count` is `None` instead of `0` when
civilization tracking is disabled.  Construction and the event/spawn
phases are identical. -/

/-- The coverage loop of `galaxy_sim.SupernovaSimulation.step`
(lines 197-203): each iteration divides by `total_domain_cells`
unconditionally; `none` models the `ZeroDivisionError`. -/
def galaxyCoveragePhase (s : SimState) : Option (List (ℕ × ℚ) × SimState) :=
  (thresholds s.max_threshold).foldl
    (fun acc th =>
      match acc with
      | none => none
      | some (cov, s') =>
        if s'.total_domain_cells = 0 then none
        else
          let frac := (countAtLeast s' th : ℚ) / (s'.total_domain_cells : ℚ)
          some (cov ++ [(th, frac)],
            { s' with coverage_history := fun t =>
                if t = th then s'.coverage_history th ++ [frac]
                else s'.coverage_history t }))
    (some ([], s))

/-- `SupernovaSimulation.step` from `src/galaxy_sim.py`.  `Except.error`
models the uncaught `ZeroDivisionError`; on success, `none` is the terminal
`return False`. -/
def galaxy_step (o : Oracle) (s : SimState) (g : Glob) :
    Except String (Option StepRes × SimState × Glob) :=
  if s.num_intervals ≤ s.current_interval then Except.ok (none, s, g)
  else
    let num_events := o.poisson s.mean_events g.npSeed g.npPos
    let g := { g with npPos := g.npPos + 1 }
    let sg := (doEvent o)^[num_events] (s, g)
    let sg :=
      if sg.1.simulate_civilizations then
        let num_new_civs := o.poisson sg.1.civ_per_interval sg.2.npSeed sg.2.npPos
        let g2 := { sg.2 with npPos := sg.2.npPos + 1 }
        let sg2 := (spawnCiv o)^[num_new_civs] (sg.1, g2)
        ({ sg2.1 with
            civ_history := sg2.1.civ_history ++ [living_count sg2.1.civilizations] },
          sg2.2)
      else sg
    match galaxyCoveragePhase sg.1 with
    | none => Except.error "ZeroDivisionError: division by zero"
    | some covs =>
      let s1 := covs.2
      let s2 := { s1 with current_interval := s1.current_interval + 1 }
      let s3 := { s2 with intervals := s2.intervals ++ [s2.current_interval] }
      Except.ok (some {
        interval := s3.current_interval
        coverage := covs.1
        civ_count := if s3.simulate_civilizations
          then some (s3.civ_history.getLast?.getD 0) else none
        supernovae := s3.supernovae }, s3, sg.2)

/-! ## Run schedulers -/

/-- `n` successive `step()` calls on one engine, collecting the returned
records. -/
def runN (o : Oracle) : ℕ → SimState → Glob → List (Option StepRes) × SimState × Glob
  | 0, s, g => ([], s, g)
  | Nat.succ n, s, g =>
    let r := step o s g
    let rest := runN o n r.2.1 r.2.2
    (r.1 :: rest.1, rest.2)

/-- Interleaved `step()` calls on two engines sharing the process-global
random state: `true` steps engine A, `false` steps engine B; the two
result sequences are collected separately. -/
def runPair (o : Oracle) : List Bool → SimState → SimState → Glob →
    (List (Option StepRes) × List (Option StepRes)) × SimState × SimState × Glob
  | [], sa, sb, g => (([], []), sa, sb, g)
  | true :: sched, sa, sb, g =>
    let r := step o sa g
    let rest := runPair o sched r.2.1 sb r.2.2
    ((r.1 :: rest.1.1, rest.1.2), rest.2)
  | false :: sched, sa, sb, g =>
    let r := step o sb g
    let rest := runPair o sched sa r.2.1 r.2.2
    ((rest.1.1, r.1 :: rest.1.2), rest.2)

/-! ## C2: the random source is shared process-global state -/

/-- Claim C2, amended: the random source is process-global, and `__init__`
with a non-`None` seed re-seeds it.  Two engines constructed with identical
configuration and identical seed therefore behave identically when each
engine's construction is immediately followed by its own (non-interleaved)
run: construction and a full run do not depend on the global stream state
left behind before construction. -/
theorem C2_sequential_determinism (o : Oracle) (cfg : Config) (sd : ℕ)
    (hseed : cfg.seed = some sd) (g g' : Glob) (n : ℕ) (s0 : SimState)
    (h : (init cfg g).1 = Except.ok s0) :
    (init cfg g').1 = Except.ok s0
      ∧ runN o n s0 (init cfg g).2 = runN o n s0 (init cfg g').2 := by
  have heq : init cfg g = init cfg g' := by
    unfold init seedGlobals
    rw [hseed]
  constructor
  · rw [← heq]
    exact h
  · rw [heq]

/-! ## Frame lemmas for the phases of `step` -/

theorem doEvent_frame (o : Oracle) (sg : SimState × Glob) :
    (doEvent o sg).1 = { sg.1 with
      hit_count := (doEvent o sg).1.hit_count
      supernovae := sg.1.supernovae + 1
      civilizations := (doEvent o sg).1.civilizations } := by
  unfold doEvent run_supernova
  dsimp only
  split
  · rfl
  · rfl

theorem spawnCiv_frame (o : Oracle) (sg : SimState × Glob) :
    (spawnCiv o sg).1 = { sg.1 with
      civilizations := (spawnCiv o sg).1.civilizations
      next_civ_id := sg.1.next_civ_id + 1 } := by
  unfold spawnCiv generate_civilization
  rfl

theorem covStepF_frame (acc : List (ℕ × ℚ) × SimState) (th : ℕ) :
    (covStepF acc th).2 = { acc.2 with
      coverage_history := (covStepF acc th).2.coverage_history } := by
  unfold covStepF
  rfl

theorem coverageFold_snd (s : SimState) (L : List ℕ) (acc : List (ℕ × ℚ) × SimState)
    (hacc : acc.2 = { s with coverage_history := acc.2.coverage_history }) :
    (L.foldl covStepF acc).2
      = { s with coverage_history := (L.foldl covStepF acc).2.coverage_history } := by
  induction L generalizing acc with
  | nil => exact hacc
  | cons th L ih =>
    rw [List.foldl_cons]
    refine ih _ ?_
    rw [covStepF_frame, hacc]

theorem coveragePhase_snd (s : SimState) :
    (coveragePhase s).2
      = { s with coverage_history := (coveragePhase s).2.coverage_history } := by
  unfold coveragePhase
  exact coverageFold_snd s _ ([], s) rfl

/-- Invariant preservation along `Function.iterate`. -/
theorem iterate_pres {α : Type} {f : α → α} {Pr : α → Prop}
    (hf : ∀ a, Pr a → Pr (f a)) : ∀ (n : ℕ) (a : α), Pr a → Pr (f^[n] a)
  | 0, _, ha => ha
  | Nat.succ n, a, ha => by
    rw [Function.iterate_succ_apply]
    exact iterate_pres hf n (f a) (hf a ha)

end Supernova

namespace Supernova

/-! ## C5: which configurations fail at construction -/

/-- Claim C5, amended: construction fails exactly when a grid axis has
fewer than 2 points (`IndexError` computing the spacing) or when a grid
spacing is zero, i.e. `R = 0` or `h = 0` (`ZeroDivisionError` computing
the window extents).  In particular `R < 0` is accepted. -/
theorem C5_init_fails_iff (cfg : Config) (g : Glob) :
    (∃ msg, (init cfg g).1 = Except.error msg)
      ↔ cfg.ngrid_xy < 2 ∨ cfg.ngrid_z < 2 ∨ cfg.R = 0 ∨ cfg.h = 0 := by
  unfold init
  by_cases h1 : cfg.ngrid_xy < 2
  · simp [h1]
  · by_cases h2 : cfg.ngrid_z < 2
    · simp [h1, h2]
    · have hdenx : ((cfg.ngrid_xy : ℚ) - 1) ≠ 0 := by
        have hx : (2 : ℕ) ≤ cfg.ngrid_xy := not_lt.1 h1
        have hx2 : (2 : ℚ) ≤ (cfg.ngrid_xy : ℚ) := by exact_mod_cast hx
        intro hq
        linarith
      have hdenz : ((cfg.ngrid_z : ℚ) - 1) ≠ 0 := by
        have hz : (2 : ℕ) ≤ cfg.ngrid_z := not_lt.1 h2
        have hz2 : (2 : ℚ) ≤ (cfg.ngrid_z : ℚ) := by exact_mod_cast hz
        intro hq
        linarith
      have hdx : (2 * cfg.R / ((cfg.ngrid_xy : ℚ) - 1) = 0) ↔ cfg.R = 0 := by
        rw [div_eq_zero_iff]
        constructor
        · rintro (hr | hr)
          · have : cfg.R = 0 := by linarith
            exact this
          · exact absurd hr hdenx
        · intro hr
          left
          rw [hr, mul_zero]
      have hdz : (cfg.h / ((cfg.ngrid_z : ℚ) - 1) = 0) ↔ cfg.h = 0 := by
        rw [div_eq_zero_iff]
        constructor
        · rintro (hr | hr)
          · exact hr
          · exact absurd hr hdenz
        · intro hr
          left
          exact hr
      by_cases h3 : 2 * cfg.R / ((cfg.ngrid_xy : ℚ) - 1) = 0
      · simp [h1, h2, h3, hdx.1 h3]
      · by_cases h4 : cfg.h / ((cfg.ngrid_z : ℚ) - 1) = 0
        · simp [h1, h2, h3, h4, hdz.1 h4]
        · simp only [h1, h2, h3, h4, if_false, ite_false]
          simp [h1, h2]
          exact ⟨fun hr => h3 (hdx.2 hr), fun hh => h4 (hdz.2 hh)⟩

end Supernova

namespace Supernova

/-! ## C6: the terminal state is absorbing -/

theorem step_terminal (o : Oracle) (s : SimState) (g : Glob)
    (h : s.num_intervals ≤ s.current_interval) : step o s g = (none, s, g) := by
  unfold step
  rw [if_pos h]

/-- Claim C6: from any engine state with `current_interval ≥ num_intervals`,
every subsequent `step()` call returns the terminal signal (`False`,
modelled `none`) and leaves the engine state — all its attributes — and
the global random state unchanged, for every number of further calls. -/
theorem C6_terminal_noop (o : Oracle) (s : SimState) (g : Glob)
    (h : s.num_intervals ≤ s.current_interval) (m : ℕ) :
    runN o m s g = (List.replicate m none, s, g) := by
  induction m with
  | zero => rfl
  | succ m ih =>
    unfold runN
    rw [step_terminal o s g h]
    dsimp only
    rw [ih, List.replicate_succ]

/-! ## C7: evolution of the int32 hit-count cells

Every write to the grid is a wrapped unit increment, so the value of a cell
after any run is the int32-wrapped sum of its initial value and the number
of hits it received.  Monotone non-decrease holds only while that sum stays
below `2^31`; at `2147483647` the next hit wraps the cell to `-2147483648`. -/

theorem int32wrap_add_wrap (v a : ℤ) :
    int32wrap (int32wrap v + a) = int32wrap (v + a) := by
  unfold int32wrap
  omega

theorem int32wrap_eq_self {v : ℤ} (h1 : -2147483648 ≤ v) (h2 : v < 2147483648) :
    int32wrap v = v := by
  unfold int32wrap
  omega

/-- `w` arises from `v` by a finite number of int32-wrapping unit
increments (`m` of them). -/
def HitReach (v w : ℤ) : Prop :=
  ∃ m : ℕ, (m = 0 ∧ w = v) ∨ w = int32wrap (v + (m : ℤ))

theorem hitReach_refl (v : ℤ) : HitReach v v := ⟨0, Or.inl ⟨rfl, rfl⟩⟩

theorem hitReach_bump (v : ℤ) : HitReach v (int32wrap (v + 1)) :=
  ⟨1, Or.inr (by norm_num)⟩

theorem hitReach_trans {v w u : ℤ} (h1 : HitReach v w) (h2 : HitReach w u) :
    HitReach v u := by
  obtain ⟨m1, h1⟩ := h1
  obtain ⟨m2, h2⟩ := h2
  rcases h2 with ⟨hm2, rfl⟩ | rfl
  · exact ⟨m1, h1⟩
  · rcases h1 with ⟨hm1, rfl⟩ | rfl
    · exact ⟨m2, Or.inr rfl⟩
    · refine ⟨m1 + m2, Or.inr ?_⟩
      rw [int32wrap_add_wrap]
      congr 1
      push_cast
      ring

theorem bump_reach (g : HitGrid) (i j k i' j' k' : ℤ) :
    HitReach (g i' j' k') (bump g i j k i' j' k') := by
  unfold bump
  split
  · rename_i hm
    obtain ⟨h1, h2, h3⟩ := hm
    subst h1
    subst h2
    subst h3
    exact hitReach_bump _
  · exact hitReach_refl _

theorem stampCell_reach (P : UP) (st : HC) (c : Cell) (i j k : ℤ) :
    HitReach (st.hit i j k) ((stampCell P st c).hit i j k) := by
  unfold stampCell
  split
  · exact bump_reach _ _ _ _ _ _ _
  · exact hitReach_refl _

theorem stampFold_reach (P : UP) (L : List Cell) (st : HC) (i j k : ℤ) :
    HitReach (st.hit i j k) ((L.foldl (stampCell P) st).hit i j k) := by
  induction L generalizing st with
  | nil => exact hitReach_refl _
  | cons d L ih =>
    rw [List.foldl_cons]
    exact hitReach_trans (stampCell_reach P st d i j k) (ih _)

theorem update_hit_count_reach (hc : HitGrid) (n nz : ℕ) (R h x0 y0 z0 : ℚ)
    (ic jc kc rx ry rz : ℤ) (dx dy dz br : ℚ) (i j k : ℤ) :
    HitReach (hc i j k)
      ((update_hit_count hc n nz R h x0 y0 z0 ic jc kc rx ry rz dx dy dz br).hit
        i j k) := by
  rw [update_hit_count_eq_stamp hc ⟨n, nz, R, h, x0, y0, z0, dx, dy, dz, br⟩ ic jc kc rx ry rz]
  exact stampFold_reach _ _ ⟨hc, 0⟩ i j k

theorem doEvent_reach (o : Oracle) (sg : SimState × Glob) (i j k : ℤ) :
    HitReach (sg.1.hit_count i j k) ((doEvent o sg).1.hit_count i j k) := by
  unfold doEvent run_supernova
  dsimp only
  split
  · exact update_hit_count_reach _ _ _ _ _ _ _ _ _ _ _ _ _ _ _ _ _ _ i j k
  · exact update_hit_count_reach _ _ _ _ _ _ _ _ _ _ _ _ _ _ _ _ _ _ i j k

theorem eventIter_reach (o : Oracle) (n : ℕ) (sg : SimState × Glob) (i j k : ℤ) :
    HitReach (sg.1.hit_count i j k) (((doEvent o)^[n] sg).1.hit_count i j k) := by
  induction n generalizing sg with
  | zero => exact hitReach_refl _
  | succ n ih =>
    rw [Function.iterate_succ_apply]
    exact hitReach_trans (doEvent_reach o sg i j k) (ih _)

theorem spawnIter_hit (o : Oracle) (n : ℕ) (sg : SimState × Glob) :
    ((spawnCiv o)^[n] sg).1.hit_count = sg.1.hit_count := by
  induction n generalizing sg with
  | zero => rfl
  | succ n ih =>
    rw [Function.iterate_succ_apply, ih]
    rw [spawnCiv_frame]

theorem step_reach (o : Oracle) (s : SimState) (g : Glob) (i j k : ℤ) :
    HitReach (s.hit_count i j k) ((step o s g).2.1.hit_count i j k) := by
  unfold step
  split
  · exact hitReach_refl _
  · dsimp only
    split
    · dsimp only
      rw [coveragePhase_snd]
      dsimp only
      rw [spawnIter_hit]
      dsimp only
      exact eventIter_reach o _ (s, _) i j k
    · rw [coveragePhase_snd]
      dsimp only
      exact eventIter_reach o _ (s, _) i j k

theorem runN_reach (o : Oracle) (n : ℕ) (s : SimState) (g : Glob) (i j k : ℤ) :
    HitReach (s.hit_count i j k) ((runN o n s g).2.1.hit_count i j k) := by
  induction n generalizing s g with
  | zero => exact hitReach_refl _
  | succ n ih =>
    unfold runN
    dsimp only
    exact hitReach_trans (step_reach o s g i j k) (ih _ _)

/-! ## C8: coverage is antitone in the threshold -/

theorem length_filter_mono {α : Type} (l : List α) (p q : α → Bool)
    (h : ∀ a, p a = true → q a = true) :
    (l.filter p).length ≤ (l.filter q).length := by
  induction l with
  | nil => exact le_refl _
  | cons a l ih =>
    by_cases hpa : p a = true
    · rw [List.filter_cons_of_pos hpa, List.filter_cons_of_pos (h a hpa)]
      simpa using ih
    · rw [List.filter_cons_of_neg (by simpa using hpa)]
      by_cases hqa : q a = true
      · rw [List.filter_cons_of_pos hqa]
        exact ih.trans (Nat.le_succ _)
      · rw [List.filter_cons_of_neg (by simpa using hqa)]
        exact ih

theorem countAtLeast_anti (s : SimState) {t1 t2 : ℕ} (h : t1 ≤ t2) :
    countAtLeast s t2 ≤ countAtLeast s t1 := by
  unfold countAtLeast
  refine length_filter_mono _ _ _ (fun c hc => ?_)
  simp only [decide_eq_true_eq] at hc ⊢
  omega

theorem coverageFrac_anti (s : SimState) {t1 t2 : ℕ} (h : t1 ≤ t2) :
    coverageFrac s t2 ≤ coverageFrac s t1 := by
  unfold coverageFrac
  split
  · rename_i htot
    have hcount : countAtLeast s t2 ≤ countAtLeast s t1 := countAtLeast_anti s h
    have htotpos : (0 : ℚ) < (s.total_domain_cells : ℚ) := by
      have := Nat.pos_of_ne_zero htot
      exact_mod_cast this
    rw [div_le_div_iff₀ htotpos htotpos]
    refine mul_le_mul_of_nonneg_right ?_ (le_of_lt htotpos)
    exact_mod_cast hcount
  · exact le_refl 0

theorem coverageFrac_covStepF (acc : List (ℕ × ℚ) × SimState) (th t : ℕ) :
    coverageFrac (covStepF acc th).2 t = coverageFrac acc.2 t := rfl

theorem coverageFold_fst (s : SimState) (L : List ℕ) (acc : List (ℕ × ℚ) × SimState)
    (hacc : ∀ t, coverageFrac acc.2 t = coverageFrac s t) :
    (L.foldl covStepF acc).1 = acc.1 ++ L.map (fun th => (th, coverageFrac s th)) := by
  induction L generalizing acc with
  | nil => simp
  | cons th L ih =>
    rw [List.foldl_cons, ih]
    · show (covStepF acc th).1 ++ _ = _
      unfold covStepF
      dsimp only
      rw [hacc th, List.map_cons, List.append_assoc]
      rfl
    · intro t
      rw [coverageFrac_covStepF, hacc]

theorem coveragePhase_fst (s : SimState) :
    (coveragePhase s).1
      = (thresholds s.max_threshold).map (fun th => (th, coverageFrac s th)) := by
  unfold coveragePhase
  rw [coverageFold_fst s _ ([], s) (fun t => rfl)]
  simp

/-- Claim C8: within the record returned by any successful `step()` call,
the coverage fraction recorded for a smaller threshold is at least the
fraction recorded for a larger one. -/
theorem C8_coverage_ordering (o : Oracle) (s : SimState) (g : Glob)
    (res : StepRes) (hres : (step o s g).1 = some res)
    (t1 t2 : ℕ) (q1 q2 : ℚ) (h1 : (t1, q1) ∈ res.coverage)
    (h2 : (t2, q2) ∈ res.coverage) (hlt : t1 < t2) : q2 ≤ q1 := by
  unfold step at hres
  split at hres
  · exact absurd hres (by simp)
  · dsimp only at hres
    rw [Option.some.injEq] at hres
    subst hres
    dsimp only at h1 h2
    rw [coveragePhase_fst] at h1 h2
    obtain ⟨th1, hth1, heq1⟩ := List.mem_map.1 h1
    obtain ⟨th2, hth2, heq2⟩ := List.mem_map.1 h2
    simp only [Prod.mk.injEq] at heq1 heq2
    obtain ⟨h1a, h1b⟩ := heq1
    obtain ⟨h2a, h2b⟩ := heq2
    subst h1a
    subst h2a
    subst h1b
    subst h2b
    exact coverageFrac_anti _ hlt.le

end Supernova

namespace Supernova

/-! ## Iterated frame lemmas -/

theorem eventIter_frame (o : Oracle) (n : ℕ) (sg : SimState × Glob) :
    ((doEvent o)^[n] sg).1 = { sg.1 with
      hit_count := ((doEvent o)^[n] sg).1.hit_count
      supernovae := ((doEvent o)^[n] sg).1.supernovae
      civilizations := ((doEvent o)^[n] sg).1.civilizations } := by
  induction n generalizing sg with
  | zero => rfl
  | succ n ih =>
    rw [Function.iterate_succ_apply, ih (doEvent o sg), doEvent_frame o sg]

theorem spawnIter_frame (o : Oracle) (n : ℕ) (sg : SimState × Glob) :
    ((spawnCiv o)^[n] sg).1 = { sg.1 with
      civilizations := ((spawnCiv o)^[n] sg).1.civilizations
      next_civ_id := ((spawnCiv o)^[n] sg).1.next_civ_id } := by
  induction n generalizing sg with
  | zero => rfl
  | succ n ih =>
    rw [Function.iterate_succ_apply, ih (spawnCiv o sg), spawnCiv_frame o sg]

/-! ## C9: the civ_count field of a step record -/

/-- Claim C9, amended: the record returned by a successful `step()` always
carries a `civ_count` value: `living_count()` as of the end of the interval
when civilization tracking is enabled, and `0` when tracking is disabled. -/
theorem C9_civ_count (o : Oracle) (s : SimState) (g : Glob) (res : StepRes)
    (hres : (step o s g).1 = some res) :
    res.civ_count = some (if s.simulate_civilizations = true
      then living_count ((step o s g).2.1.civilizations) else 0) := by
  unfold step at hres ⊢
  split at hres
  · exact absurd hres (by simp)
  · rename_i hterm
    rw [if_neg hterm]
    dsimp only at hres ⊢
    split at hres
    · rename_i hciv
      rw [if_pos hciv] at *
      rw [Option.some.injEq] at hres
      subst hres
      dsimp only
      rw [coveragePhase_snd]
      dsimp only
      rw [spawnIter_frame]
      dsimp only
      have hs : s.simulate_civilizations = true := by
        rw [eventIter_frame] at hciv
        exact hciv
      rw [eventIter_frame]
      dsimp only
      rw [hs]
      simp only [List.getLast?_concat, Option.getD_some, Bool.true_and,
        List.isEmpty_eq_false, Bool.not_eq_true]
      split
      · rfl
      · rename_i hcontra
        simp at hcontra
    · rename_i hciv
      rw [if_neg hciv] at *
      rw [Option.some.injEq] at hres
      subst hres
      dsimp only
      rw [coveragePhase_snd]
      dsimp only
      have hs : s.simulate_civilizations = false := by
        rw [eventIter_frame] at hciv
        simpa using hciv
      rw [eventIter_frame]
      dsimp only
      rw [hs]
      simp

/-! ## C4: extinction never precedes birth -/

/-- Mid-step civilization record invariant, spawn phase included: born no
later than the running interval `I`, and extinguished (if at all) strictly
after birth. -/
def civOK (I : ℕ) (c : Civ) : Prop :=
  c.birth_interval ≤ I ∧ ∀ e, c.extinction_interval = some e → c.birth_interval < e

/-- Civilization record invariant during the event phase: born strictly
before the running interval `I` (spawning happens after all events). -/
def civStrict (I : ℕ) (c : Civ) : Prop :=
  c.birth_interval < I ∧ ∀ e, c.extinction_interval = some e → c.birth_interval < e

/-- Engine invariant between `step()` calls. -/
def CivInv (s : SimState) : Prop :=
  ∀ c ∈ s.civilizations, civStrict s.current_interval c

theorem extinguish_pres {br x0 y0 z0 : ℚ} {I : ℕ} {civs : List Civ}
    (h : ∀ c ∈ civs, civStrict I c) :
    ∀ c ∈ extinguish br x0 y0 z0 I civs, civStrict I c := by
  intro c hc
  unfold extinguish at hc
  rw [List.mem_map] at hc
  obtain ⟨c0, hc0, hfc⟩ := hc
  have hprop := h c0 hc0
  dsimp only at hfc
  by_cases hext : c0.extinct = true
  · rw [if_pos hext] at hfc
    exact hfc ▸ hprop
  · rw [if_neg hext] at hfc
    by_cases hd : (c0.x - x0) * (c0.x - x0) + (c0.y - y0) * (c0.y - y0)
        + (c0.z - z0) * (c0.z - z0) ≤ br * br
    · rw [if_pos hd] at hfc
      subst hfc
      refine ⟨hprop.1, fun e he => ?_⟩
      simp only [Option.some.injEq] at he
      subst he
      exact hprop.1
    · rw [if_neg hd] at hfc
      exact hfc ▸ hprop

theorem doEvent_civs (o : Oracle) (sg : SimState × Glob) :
    (doEvent o sg).1.civilizations = sg.1.civilizations
    ∨ ∃ x0 y0 z0, (doEvent o sg).1.civilizations
        = extinguish sg.1.bubble_r x0 y0 z0 sg.1.current_interval sg.1.civilizations := by
  unfold doEvent run_supernova
  dsimp only
  split
  · right
    exact ⟨_, _, _, rfl⟩
  · left
    rfl

theorem doEvent_pres_inv (o : Oracle) (I : ℕ) (sg : SimState × Glob)
    (hp : sg.1.current_interval = I ∧ ∀ c ∈ sg.1.civilizations, civStrict I c) :
    (doEvent o sg).1.current_interval = I
      ∧ ∀ c ∈ (doEvent o sg).1.civilizations, civStrict I c := by
  obtain ⟨hcur, hciv⟩ := hp
  constructor
  · rw [doEvent_frame]
    exact hcur
  · rcases doEvent_civs o sg with hsame | ⟨x0, y0, z0, hex⟩
    · rw [hsame]
      exact hciv
    · rw [hex, hcur]
      exact extinguish_pres (hcur ▸ hciv)

theorem eventIter_civ_prop (o : Oracle) (I : ℕ) (n : ℕ) (sg : SimState × Glob)
    (hp : sg.1.current_interval = I ∧ ∀ c ∈ sg.1.civilizations, civStrict I c) :
    ((doEvent o)^[n] sg).1.current_interval = I
      ∧ ∀ c ∈ ((doEvent o)^[n] sg).1.civilizations, civStrict I c :=
  iterate_pres (fun a ha => doEvent_pres_inv o I a ha) n sg hp

theorem spawnCiv_pres_inv (o : Oracle) (I : ℕ) (sg : SimState × Glob)
    (hp : sg.1.current_interval = I ∧ ∀ c ∈ sg.1.civilizations, civOK I c) :
    (spawnCiv o sg).1.current_interval = I
      ∧ ∀ c ∈ (spawnCiv o sg).1.civilizations, civOK I c := by
  obtain ⟨hcur, hciv⟩ := hp
  constructor
  · rw [spawnCiv_frame]
    exact hcur
  · intro c hc
    unfold spawnCiv at hc
    dsimp only at hc
    rw [List.mem_append] at hc
    rcases hc with hc | hc
    · exact hciv c hc
    · rw [List.mem_singleton] at hc
      subst hc
      exact ⟨le_of_eq hcur, fun e he => by simp at he⟩

theorem spawnIter_civ_prop (o : Oracle) (I : ℕ) (n : ℕ) (sg : SimState × Glob)
    (hp : sg.1.current_interval = I ∧ ∀ c ∈ sg.1.civilizations, civOK I c) :
    ((spawnCiv o)^[n] sg).1.current_interval = I
      ∧ ∀ c ∈ ((spawnCiv o)^[n] sg).1.civilizations, civOK I c :=
  iterate_pres (fun a ha => spawnCiv_pres_inv o I a ha) n sg hp

theorem step_pres_CivInv (o : Oracle) (s : SimState) (g : Glob) (h : CivInv s) :
    CivInv (step o s g).2.1 := by
  unfold step
  split
  · exact h
  · dsimp only
    split
    · dsimp only
      intro c hc
      rw [coveragePhase_snd] at hc
      dsimp only at hc
      rw [coveragePhase_snd]
      dsimp only
      rw [spawnIter_frame]
      dsimp only
      rw [eventIter_frame]
      dsimp only
      have hbase : ∀ c0 ∈ (s : SimState).civilizations, civStrict s.current_interval c0 := h
      have hE := eventIter_civ_prop o s.current_interval
        (o.poisson s.mean_events g.npSeed g.npPos)
        (s, { g with npPos := g.npPos + 1 }) ⟨rfl, hbase⟩
      have hcOK : civOK s.current_interval c := by
        refine (spawnIter_civ_prop o s.current_interval _ _ ⟨?_, ?_⟩).2 c hc
        · exact hE.1
        · intro c0 hc0
          exact ⟨le_of_lt (hE.2 c0 hc0).1, (hE.2 c0 hc0).2⟩
      exact ⟨Nat.lt_succ_of_le hcOK.1, hcOK.2⟩
    · intro c hc
      rw [coveragePhase_snd] at hc
      dsimp only at hc
      rw [coveragePhase_snd]
      dsimp only
      rw [eventIter_frame]
      dsimp only
      have hE := eventIter_civ_prop o s.current_interval
        (o.poisson s.mean_events g.npSeed g.npPos)
        (s, { g with npPos := g.npPos + 1 }) ⟨rfl, h⟩
      have hcS : civStrict s.current_interval c := hE.2 c hc
      exact ⟨Nat.lt_succ_of_le (le_of_lt hcS.1), hcS.2⟩

theorem runN_pres_CivInv (o : Oracle) (n : ℕ) (s : SimState) (g : Glob)
    (h : CivInv s) : CivInv (runN o n s g).2.1 := by
  induction n generalizing s g with
  | zero => exact h
  | succ n ih =>
    unfold runN
    dsimp only
    exact ih _ _ (step_pres_CivInv o s g h)

theorem init_civilizations (cfg : Config) (g : Glob) (s0 : SimState)
    (hinit : (init cfg g).1 = Except.ok s0) : s0.civilizations = [] := by
  unfold init at hinit
  split at hinit
  · exact absurd hinit (by simp)
  · split at hinit
    · exact absurd hinit (by simp)
    · dsimp only at hinit
      split at hinit
      · exact absurd hinit (by simp)
      · split at hinit
        · exact absurd hinit (by simp)
        · rw [Except.ok.injEq] at hinit
          rw [← hinit]

/-! ## C10: the minimal legal grid has an empty domain -/

theorem init_total (cfg : Config) (g : Glob) (s0 : SimState)
    (hinit : (init cfg g).1 = Except.ok s0) :
    s0.total_domain_cells
      = ((gridCells cfg.ngrid_xy cfg.ngrid_z).filter
          (fun c => decide (inDomain cfg.R (2 * cfg.R / ((cfg.ngrid_xy : ℚ) - 1))
            (2 * cfg.R / ((cfg.ngrid_xy : ℚ) - 1)) c))).length := by
  unfold init at hinit
  split at hinit
  · exact absurd hinit (by simp)
  · split at hinit
    · exact absurd hinit (by simp)
    · dsimp only at hinit
      split at hinit
      · exact absurd hinit (by simp)
      · split at hinit
        · exact absurd hinit (by simp)
        · rw [Except.ok.injEq] at hinit
          rw [← hinit]

theorem step_total (o : Oracle) (s : SimState) (g : Glob) :
    (step o s g).2.1.total_domain_cells = s.total_domain_cells := by
  unfold step
  split
  · rfl
  · dsimp only
    split
    · dsimp only
      rw [coveragePhase_snd]
      dsimp only
      rw [spawnIter_frame]
      dsimp only
      rw [eventIter_frame]
    · rw [coveragePhase_snd]
      dsimp only
      rw [eventIter_frame]

theorem step_coverage_zero (o : Oracle) (s : SimState) (g : Glob)
    (htot : s.total_domain_cells = 0) (res : StepRes)
    (hres : (step o s g).1 = some res) :
    ∀ p ∈ res.coverage, p.2 = 0 := by
  unfold step at hres
  split at hres
  · exact absurd hres (by simp)
  · dsimp only at hres
    split at hres
    · rw [Option.some.injEq] at hres
      subst hres
      intro p hp
      dsimp only at hp
      rw [coveragePhase_fst] at hp
      obtain ⟨th, hth, heq⟩ := List.mem_map.1 hp
      rw [← heq]
      dsimp only
      unfold coverageFrac
      split
      · rename_i hne
        exfalso
        apply hne
        dsimp only
        rw [spawnIter_frame]
        dsimp only
        rw [eventIter_frame]
        exact htot
      · rfl
    · rw [Option.some.injEq] at hres
      subst hres
      intro p hp
      dsimp only at hp
      rw [coveragePhase_fst] at hp
      obtain ⟨th, hth, heq⟩ := List.mem_map.1 hp
      rw [← heq]
      dsimp only
      unfold coverageFrac
      split
      · rename_i hne
        exfalso
        apply hne
        rw [eventIter_frame]
        exact htot
      · rfl

theorem runN_coverage_zero (o : Oracle) (n : ℕ) (s : SimState) (g : Glob)
    (htot : s.total_domain_cells = 0) :
    ∀ r ∈ (runN o n s g).1, ∀ res, r = some res → ∀ p ∈ res.coverage, p.2 = 0 := by
  induction n generalizing s g with
  | zero => intro r hr; exact absurd hr (List.not_mem_nil r)
  | succ n ih =>
    intro r hr res hsome p hp
    unfold runN at hr
    dsimp only at hr
    rw [List.mem_cons] at hr
    rcases hr with hr | hr
    · subst hr
      exact step_coverage_zero o s g htot res hsome p hp
    · have htot' : (step o s g).2.1.total_domain_cells = 0 := by
        rw [step_total, htot]
      exact ih (step o s g).2.1 (step o s g).2.2 htot' r hr res hsome p hp

/-- Claim C10: for every `R > 0`, `h ≠ 0` and `ngrid_z ≥ 2`, constructing the
engine with the minimal legal resolution `ngrid_xy = 2` succeeds but yields
`total_domain_cells = 0` — all four (x,y) grid columns sit at the corners
`(±R, ±R)`, where `x² + y² = 2R² > R²` — and consequently every record any
`step()` call ever returns reports coverage `0.0` at every threshold. -/
theorem C10_min_grid (cfg : Config) (g : Glob) (hgrid : cfg.ngrid_xy = 2)
    (hR : 0 < cfg.R) (hnz : 2 ≤ cfg.ngrid_z) (hh : cfg.h ≠ 0) :
    ∃ s0, (init cfg g).1 = Except.ok s0
      ∧ s0.total_domain_cells = 0
      ∧ ∀ (o : Oracle) (n : ℕ) (r : Option StepRes) (res : StepRes),
          r ∈ (runN o n s0 (init cfg g).2).1 → r = some res →
          ∀ p ∈ res.coverage, p.2 = 0 := by
  have hok : ∃ s0, (init cfg g).1 = Except.ok s0 := by
    have hnoerr := (C5_init_fails_iff cfg g).not.2 (by
      push_neg
      refine ⟨by omega, by omega, ne_of_gt hR, hh⟩)
    cases hval : (init cfg g).1 with
    | ok s0 => exact ⟨s0, rfl⟩
    | error msg => exact absurd ⟨msg, hval⟩ hnoerr
  obtain ⟨s0, hs0⟩ := hok
  have htot : s0.total_domain_cells = 0 := by
    rw [init_total cfg g s0 hs0]
    rw [List.length_eq_zero]
    rw [List.filter_eq_nil_iff]
    intro c hc
    rw [mem_gridCells] at hc
    rw [hgrid] at hc
    simp only [decide_eq_true_eq]
    unfold inDomain
    obtain ⟨hi0, hi1, hj0, hj1, -, -⟩ := hc
    have hden : ((cfg.ngrid_xy : ℚ) - 1) = 1 := by
      rw [hgrid]
      norm_num
    rw [hden]
    have hx : (-cfg.R + (c.1 : ℚ) * (2 * cfg.R / 1)) * (-cfg.R + (c.1 : ℚ) * (2 * cfg.R / 1))
        = cfg.R * cfg.R := by
      have : c.1 = 0 ∨ c.1 = 1 := by omega
      rcases this with hc1 | hc1
      · rw [hc1]
        push_cast
        ring
      · rw [hc1]
        push_cast
        ring
    have hy : (-cfg.R + (c.2.1 : ℚ) * (2 * cfg.R / 1)) * (-cfg.R + (c.2.1 : ℚ) * (2 * cfg.R / 1))
        = cfg.R * cfg.R := by
      have : c.2.1 = 0 ∨ c.2.1 = 1 := by omega
      rcases this with hc1 | hc1
      · rw [hc1]
        push_cast
        ring
      · rw [hc1]
        push_cast
        ring
    rw [hx, hy]
    intro hcon
    nlinarith [mul_pos hR hR]
  exact ⟨s0, hs0, htot, fun o n r res hr hsome =>
    runN_coverage_zero o n s0 (init cfg g).2 htot r hr res hsome⟩

/-- Claim C4: in every state reachable from a freshly constructed engine, a
civilization whose `birth_interval` is `k` never has
`extinction_interval < k`: a civilization spawned during an interval is
never extinguished by any of that interval's events, because every event
of the interval (with its extinction check) is processed before any
spawning of the interval. -/
theorem C4_extinction_ordering (o : Oracle) (cfg : Config) (g : Glob)
    (s0 : SimState) (hinit : (init cfg g).1 = Except.ok s0) (n : ℕ)
    (c : Civ) (hc : c ∈ (runN o n s0 (init cfg g).2).2.1.civilizations)
    (e : ℕ) (he : c.extinction_interval = some e) :
    ¬ e < c.birth_interval := by
  have h0 : CivInv s0 := by
    intro c0 hc0
    rw [init_civilizations cfg g s0 hinit] at hc0
    exact absurd hc0 (List.not_mem_nil c0)
  have hinv := runN_pres_CivInv o n s0 (init cfg g).2 h0
  have hprop := hinv c hc
  intro hlt
  have := hprop.2 e he
  omega

/-- Claim C7, amended: each hit-count cell is an `np.int32` that the
engine changes only by wrapped unit increments.  From any in-range
starting value, the value of a cell after any sequence of `step()` calls
equals the int32 wrap of the starting value plus the number `m` of hits
the cell received during the run, so the claimed elementwise non-decrease
holds exactly while that sum stays below `2^31` (no overflow); a hit at
`2147483647` wraps the cell to `-2147483648`, strictly decreasing it. -/
theorem C7_hit_count_wrap_monotone (o : Oracle) (s : SimState) (g : Glob)
    (n : ℕ) (i j k : ℤ)
    (hlo : -2147483648 ≤ s.hit_count i j k)
    (hhi : s.hit_count i j k < 2147483648) :
    ∃ m : ℕ,
      (runN o n s g).2.1.hit_count i j k
          = int32wrap (s.hit_count i j k + (m : ℤ))
        ∧ (s.hit_count i j k + (m : ℤ) < 2147483648 →
            s.hit_count i j k ≤ (runN o n s g).2.1.hit_count i j k) := by
  obtain ⟨m, hm⟩ := runN_reach o n s g i j k
  rcases hm with ⟨hm0, heq⟩ | heq
  · refine ⟨0, ?_, fun _ => le_of_eq heq.symm⟩
    rw [heq]
    have hw := int32wrap_eq_self hlo hhi
    simp [hw]
  · refine ⟨m, heq, fun hlt => ?_⟩
    rw [heq, int32wrap_eq_self (by omega) hlt]
    omega

end Supernova

namespace Supernova

/-! ## Concrete instances: counterexamples and witnesses -/

set_option maxRecDepth 10000

/-- Small configuration for the C2 interleaving counterexample: 2 intervals,
civilization tracking off, 2×2×2 grid (an empty domain keeps coverage
trivially 0 and the run cheap), seeded. -/
def cfgC2 : Config :=
  { num_intervals := 2
    interval_years := 1
    rate_per_year := 1
    R := 1
    h := 1
    bubble_r := 1
    ngrid_xy := 2
    ngrid_z := 2
    max_threshold := 1
    simulate_civilizations := false
    civ_emergence_rate := 0
    seed := some 0 }

/-- Oracle for C2: the Poisson draw at global stream position `pos` is
`pos` itself, so interleaved engines, which consume different positions of
the shared stream, draw different event counts. -/
def oracleC2 : Oracle := ⟨fun _ _ pos => pos, fun _ _ _ _ => (0, 0, 0)⟩

/-- Engine A, constructed first. -/
def sC2A : SimState := ((init cfgC2 ⟨7, 7, 7, 7⟩).1).toOption.getD default

/-- Engine B, constructed second (construction re-seeds the global
streams, so B's state equals A's). -/
def sC2B : SimState :=
  ((init cfgC2 (init cfgC2 ⟨7, 7, 7, 7⟩).2).1).toOption.getD default

/-- Claim C2, counterexample: two engines constructed back-to-back with the
identical seeded configuration, whose `step()` calls are interleaved
A,B,A,B, produce different `StepResult` sequences (their cumulative
`supernovae` counts diverge), because both consume one shared
process-global random stream. -/
theorem C2_counterexample :
    cfgC2.seed = some 0
    ∧ (runPair oracleC2 [true, false, true, false] sC2A sC2B
        (init cfgC2 (init cfgC2 ⟨7, 7, 7, 7⟩).2).2).1.1
      ≠ (runPair oracleC2 [true, false, true, false] sC2A sC2B
        (init cfgC2 (init cfgC2 ⟨7, 7, 7, 7⟩).2).2).1.2 := by
  constructor
  · rfl
  · with_unfolding_all decide

/-- Concrete instantiation of `C2_sequential_determinism`: same seeded
configuration constructed over two different prior global states gives the
same engine and identical 2-step runs. -/
theorem C2_sequential_determinism_witness :
    cfgC2.seed = some 0
    ∧ (init cfgC2 ⟨9, 8, 7, 6⟩).1
        = Except.ok (((init cfgC2 ⟨1, 2, 3, 4⟩).1).toOption.getD default)
    ∧ runN oracleC2 2 (((init cfgC2 ⟨1, 2, 3, 4⟩).1).toOption.getD default)
          (init cfgC2 ⟨1, 2, 3, 4⟩).2
      = runN oracleC2 2 (((init cfgC2 ⟨1, 2, 3, 4⟩).1).toOption.getD default)
          (init cfgC2 ⟨9, 8, 7, 6⟩).2 := by
  have h := C2_sequential_determinism oracleC2 cfgC2 0 rfl ⟨1, 2, 3, 4⟩ ⟨9, 8, 7, 6⟩ 2
    (((init cfgC2 ⟨1, 2, 3, 4⟩).1).toOption.getD default) (by with_unfolding_all rfl)
  exact ⟨rfl, h.1, h.2⟩

/-- Configuration with `ngrid_xy = 2`, whose four grid columns all sit at
the disk corners: `total_domain_cells = 0`. -/
def cfgC3 : Config :=
  { num_intervals := 1
    interval_years := 1
    rate_per_year := 0
    R := 1
    h := 1
    bubble_r := 1
    ngrid_xy := 2
    ngrid_z := 2
    max_threshold := 1
    simulate_civilizations := false
    civ_emergence_rate := 0
    seed := some 0 }

def oracleC3 : Oracle := ⟨fun _ _ _ => 0, fun _ _ _ _ => (0, 0, 0)⟩

def sC3 : SimState := ((init cfgC3 ⟨0, 0, 0, 0⟩).1).toOption.getD default

/-- Claim C3: on a configuration with `total_domain_cells = 0`, the
`supernova_sim.simulation` step succeeds and reports coverage `0.0` at
every threshold, exactly as the claim states — but the `galaxy_sim.py`
variant of the very same step, whose coverage loop divides by
`total_domain_cells` without the zero guard, fails with
`ZeroDivisionError`. -/
theorem C3_zero_domain_divide :
    sC3.total_domain_cells = 0
    ∧ (step oracleC3 sC3 (init cfgC3 ⟨0, 0, 0, 0⟩).2).1
        = some { interval := 1, coverage := [(1, 0)], civ_count := some 0, supernovae := 0 }
    ∧ (galaxy_step oracleC3 sC3 (init cfgC3 ⟨0, 0, 0, 0⟩).2).isOk = false := by
  refine ⟨?_, ?_, ?_⟩
  · with_unfolding_all decide
  · with_unfolding_all decide
  · with_unfolding_all decide

/-- Configuration with a negative radius, degenerate according to the
claim (`R ≤ 0`). -/
def cfgC5 : Config :=
  { num_intervals := 1
    interval_years := 1
    rate_per_year := 0
    R := -1
    h := 1
    bubble_r := 1
    ngrid_xy := 2
    ngrid_z := 2
    max_threshold := 1
    simulate_civilizations := false
    civ_emergence_rate := 0
    seed := some 0 }

/-- Claim C5, counterexample: `R = -1 ≤ 0`, yet construction succeeds —
`__init__` performs no validation, and a negative radius produces a
negative spacing rather than any error. -/
theorem C5_counterexample :
    cfgC5.R < 0 ∧ (init cfgC5 ⟨0, 0, 0, 0⟩).1.isOk = true := by
  constructor
  · with_unfolding_all decide
  · with_unfolding_all decide

end Supernova

namespace Supernova

/-- Two-interval tracked configuration for the C4 witness. -/
def cfgC4w : Config :=
  { num_intervals := 2
    interval_years := 1
    rate_per_year := 1
    R := 1
    h := 1
    bubble_r := 1
    ngrid_xy := 2
    ngrid_z := 2
    max_threshold := 1
    simulate_civilizations := true
    civ_emergence_rate := 1
    seed := some 0 }

/-- Oracle for the C4 witness: interval 0 spawns one civilization at the
origin; interval 1 has one event at the origin, which extinguishes it. -/
def oracleC4 : Oracle :=
  ⟨fun _ _ pos => if pos = 1 ∨ pos = 2 then 1 else 0, fun _ _ _ _ => (0, 0, 0)⟩

def sC4w : SimState := ((init cfgC4w ⟨0, 0, 0, 0⟩).1).toOption.getD default

/-- The civilization record produced by that run: born in interval 0,
extinguished in interval 1. -/
def cC4w : Civ :=
  { id := 0, x := 0, y := 0, z := 0, birth_interval := 0, extinct := true,
    extinction_interval := some 1 }

/-- Concrete instantiation of `C4_extinction_ordering`. -/
theorem C4_extinction_ordering_witness :
    (init cfgC4w ⟨0, 0, 0, 0⟩).1 = Except.ok sC4w
    ∧ cC4w ∈ (runN oracleC4 2 sC4w (init cfgC4w ⟨0, 0, 0, 0⟩).2).2.1.civilizations
    ∧ cC4w.extinction_interval = some 1
    ∧ ¬ (1 < cC4w.birth_interval) := by
  refine ⟨by with_unfolding_all rfl, by with_unfolding_all decide, by with_unfolding_all decide, ?_⟩
  exact C4_extinction_ordering oracleC4 cfgC4w ⟨0, 0, 0, 0⟩ sC4w
    (by with_unfolding_all rfl) 2 cC4w (by with_unfolding_all decide) 1
    (by with_unfolding_all decide)

/-- Already-terminal configuration (`num_intervals = 0`) for the C6
witness. -/
def cfgC6w : Config :=
  { num_intervals := 0
    interval_years := 1
    rate_per_year := 0
    R := 1
    h := 1
    bubble_r := 1
    ngrid_xy := 2
    ngrid_z := 2
    max_threshold := 1
    simulate_civilizations := false
    civ_emergence_rate := 0
    seed := some 0 }

def oracleC6 : Oracle := ⟨fun _ _ _ => 0, fun _ _ _ _ => (0, 0, 0)⟩

def sC6w : SimState := ((init cfgC6w ⟨0, 0, 0, 0⟩).1).toOption.getD default

/-- Concrete instantiation of `C6_terminal_noop`: two further calls on a
terminal engine return `False` twice and change nothing. -/
theorem C6_terminal_noop_witness :
    sC6w.num_intervals ≤ sC6w.current_interval
    ∧ runN oracleC6 2 sC6w ⟨0, 0, 0, 0⟩ = (List.replicate 2 none, sC6w, (⟨0, 0, 0, 0⟩ : Glob)) := by
  refine ⟨by with_unfolding_all decide, ?_⟩
  exact C6_terminal_noop oracleC6 sC6w ⟨0, 0, 0, 0⟩ (by with_unfolding_all decide) 2

end Supernova

namespace Supernova

/-- Configuration for the C8 witness: 3×3×2 grid of radius 2 with
thresholds 1 and 2, one event per interval. -/
def cfgC8w : Config :=
  { num_intervals := 1
    interval_years := 1
    rate_per_year := 1
    R := 2
    h := 1
    bubble_r := 1
    ngrid_xy := 3
    ngrid_z := 2
    max_threshold := 2
    simulate_civilizations := false
    civ_emergence_rate := 0
    seed := some 0 }

def oracleC8 : Oracle := ⟨fun _ _ _ => 1, fun _ _ _ _ => (0, 0, 0)⟩

def sC8w : SimState := ((init cfgC8w ⟨0, 0, 0, 0⟩).1).toOption.getD default

/-- The record the single step returns: the event at the origin stamps the
two central cells once, so coverage is 1/5 at threshold 1 and 0 at
threshold 2. -/
def resC8w : StepRes :=
  { interval := 1, coverage := [(1, 1/5), (2, 0)], civ_count := some 0, supernovae := 1 }

/-- Concrete instantiation of `C8_coverage_ordering`. -/
theorem C8_coverage_ordering_witness :
    (step oracleC8 sC8w (init cfgC8w ⟨0, 0, 0, 0⟩).2).1 = some resC8w
    ∧ (0 : ℚ) ≤ 1/5 := by
  refine ⟨by with_unfolding_all decide, ?_⟩
  exact C8_coverage_ordering oracleC8 sC8w (init cfgC8w ⟨0, 0, 0, 0⟩).2 resC8w
    (by with_unfolding_all decide) 1 2 (1/5) 0
    (by with_unfolding_all decide) (by with_unfolding_all decide) (by decide)

/-- Untracked configuration for the C9 counterexample. -/
def cfgC9 : Config :=
  { num_intervals := 1
    interval_years := 1
    rate_per_year := 0
    R := 1
    h := 1
    bubble_r := 1
    ngrid_xy := 2
    ngrid_z := 2
    max_threshold := 1
    simulate_civilizations := false
    civ_emergence_rate := 0
    seed := some 0 }

def oracleC9 : Oracle := ⟨fun _ _ _ => 0, fun _ _ _ _ => (0, 0, 0)⟩

def sC9 : SimState := ((init cfgC9 ⟨0, 0, 0, 0⟩).1).toOption.getD default

/-- Claim C9, counterexample: with civilization tracking disabled, the
returned record still carries a `civ_count` value — the integer `0` — not
no value as the claim states. -/
theorem C9_counterexample :
    cfgC9.simulate_civilizations = false
    ∧ ((step oracleC9 sC9 (init cfgC9 ⟨0, 0, 0, 0⟩).2).1.map StepRes.civ_count)
        = some (some 0) := by
  constructor
  · rfl
  · with_unfolding_all decide

/-- Tracked configuration for the C9 witness: one civilization emerges in
the single interval. -/
def cfgC9b : Config :=
  { num_intervals := 1
    interval_years := 1
    rate_per_year := 0
    R := 1
    h := 1
    bubble_r := 1
    ngrid_xy := 2
    ngrid_z := 2
    max_threshold := 1
    simulate_civilizations := true
    civ_emergence_rate := 1
    seed := some 0 }

def oracleC9b : Oracle := ⟨fun _ _ pos => if pos = 1 then 1 else 0, fun _ _ _ _ => (0, 0, 0)⟩

def sC9b : SimState := ((init cfgC9b ⟨0, 0, 0, 0⟩).1).toOption.getD default

def resC9b : StepRes :=
  { interval := 1, coverage := [(1, 0)], civ_count := some 1, supernovae := 0 }

/-- Concrete instantiation of `C9_civ_count`: tracking enabled, one living
civilization at the end of the interval, `civ_count = some 1`. -/
theorem C9_civ_count_witness :
    (step oracleC9b sC9b (init cfgC9b ⟨0, 0, 0, 0⟩).2).1 = some resC9b
    ∧ resC9b.civ_count = some (if sC9b.simulate_civilizations = true
        then living_count ((step oracleC9b sC9b (init cfgC9b ⟨0, 0, 0, 0⟩).2).2.1.civilizations)
        else 0) := by
  refine ⟨by with_unfolding_all decide, ?_⟩
  exact C9_civ_count oracleC9b sC9b (init cfgC9b ⟨0, 0, 0, 0⟩).2 resC9b
    (by with_unfolding_all decide)

/-- Minimal-grid configuration for the C10 witness. -/
def cfgC10w : Config :=
  { num_intervals := 1
    interval_years := 1
    rate_per_year := 0
    R := 1
    h := 1
    bubble_r := 1
    ngrid_xy := 2
    ngrid_z := 2
    max_threshold := 1
    simulate_civilizations := false
    civ_emergence_rate := 0
    seed := some 0 }

/-- Concrete instantiation of `C10_min_grid`. -/
theorem C10_min_grid_witness :
    0 < cfgC10w.R
    ∧ ((init cfgC10w ⟨0, 0, 0, 0⟩).1.toOption.map (fun s => s.total_domain_cells))
        = some 0 := by
  constructor
  · with_unfolding_all decide
  · obtain ⟨s0, hs0, htot, -⟩ := C10_min_grid cfgC10w ⟨0, 0, 0, 0⟩ rfl
      (by with_unfolding_all decide) (by with_unfolding_all decide)
      (by with_unfolding_all decide)
    rw [hs0]
    dsimp only [Except.toOption, Option.map]
    rw [htot]

/-- Parameters of the C1 witness call: 3×3×2 grid of radius 1, unit
spacings, event at the origin full. -/
def upC1 : UP := ⟨3, 2, 1, 1, 0, 0, 0, 1, 1, 1, 1⟩

/-- Concrete instantiation of `C1_update_hit_count`: the event at the
origin increments the central column's two cells exactly once
(`new_hit = 2`). -/
theorem C1_update_hit_count_witness :
    |((0 : ℤ) : ℚ) - (upC1.z0 + upC1.h / 2) / upC1.dz| ≤ 1 / 2
    ∧ (update_call (fun _ _ _ => 0) upC1 1 1 0).hit 1 1 0 = 1
    ∧ (update_call (fun _ _ _ => 0) upC1 1 1 0).newHit = 2 := by
  have h := C1_update_hit_count (fun _ _ _ => 0) upC1 1 1 0
    (by with_unfolding_all decide) (by with_unfolding_all decide)
    (by with_unfolding_all decide) (by with_unfolding_all decide)
    (by with_unfolding_all decide) (by with_unfolding_all decide)
    (by with_unfolding_all decide)
  refine ⟨by with_unfolding_all decide, ?_, ?_⟩
  · have h1 := h.1 (1, 1, 0)
    dsimp only at h1
    rw [h1]
    with_unfolding_all decide
  · rw [h.2.1]
    with_unfolding_all decide

/-- A grid with one cell saturated at the int32 maximum `2147483647`. -/
def hitC1x : HitGrid :=
  fun i j k => if i = 1 ∧ j = 1 ∧ k = 0 then 2147483647 else 0

/-- Claim C1, counterexample: the cell `(1,1,0)` passes every check of the
scan, yet the call does not increment it by 1 — the `np.int32` cell at
`2147483647` wraps to `-2147483648`. -/
theorem C1_counterexample :
    cellPass upC1 (1, 1, 0)
    ∧ (update_call hitC1x upC1 1 1 0).hit 1 1 0 = -2147483648
    ∧ hitC1x 1 1 0 + 1 ≠ -2147483648 := by
  refine ⟨?_, ?_, ?_⟩
  · with_unfolding_all decide
  · with_unfolding_all decide
  · with_unfolding_all decide

/-- Configuration for the C7 counterexample and witness: 3×3×2 grid of
radius 2, one supernova per interval at the origin. -/
def cfgC7w : Config :=
  { num_intervals := 1
    interval_years := 1
    rate_per_year := 1
    R := 2
    h := 1
    bubble_r := 1
    ngrid_xy := 3
    ngrid_z := 2
    max_threshold := 1
    simulate_civilizations := false
    civ_emergence_rate := 0
    seed := some 0 }

def oracleC7 : Oracle := ⟨fun _ _ _ => 1, fun _ _ _ _ => (0, 0, 0)⟩

def sC7w : SimState := ((init cfgC7w ⟨0, 0, 0, 0⟩).1).toOption.getD default

/-- The same engine state with the cell `(1,1,0)` already at the int32
maximum `2147483647`. -/
def sC7x : SimState :=
  { sC7w with hit_count := fun i j k => if i = 1 ∧ j = 1 ∧ k = 0 then 2147483647 else 0 }

/-- Claim C7, counterexample: one `step()` whose event hits the saturated
cell `(1,1,0)` strictly decreases its value — the `np.int32` cell wraps
from `2147483647` to `-2147483648`, refuting elementwise non-decrease. -/
theorem C7_counterexample :
    (runN oracleC7 1 sC7x (init cfgC7w ⟨0, 0, 0, 0⟩).2).2.1.hit_count 1 1 0
      < sC7x.hit_count 1 1 0 := by
  with_unfolding_all decide

/-- Concrete instantiation of `C7_hit_count_wrap_monotone`: from the fresh
all-zero grid, one `step()` leaves the cell `(1,1,0)` at the wrapped sum
`int32wrap (0 + 1) = 1`, and the value did not decrease. -/
theorem C7_hit_count_wrap_monotone_witness :
    (-2147483648 ≤ sC7w.hit_count 1 1 0 ∧ sC7w.hit_count 1 1 0 < 2147483648)
    ∧ (runN oracleC7 1 sC7w (init cfgC7w ⟨0, 0, 0, 0⟩).2).2.1.hit_count 1 1 0
        = int32wrap (sC7w.hit_count 1 1 0 + ((1 : ℕ) : ℤ))
    ∧ sC7w.hit_count 1 1 0
        ≤ (runN oracleC7 1 sC7w (init cfgC7w ⟨0, 0, 0, 0⟩).2).2.1.hit_count 1 1 0 := by
  refine ⟨⟨by with_unfolding_all decide, by with_unfolding_all decide⟩,
    by with_unfolding_all decide, ?_⟩
  obtain ⟨m, -, hmono⟩ := C7_hit_count_wrap_monotone oracleC7 sC7w
    (init cfgC7w ⟨0, 0, 0, 0⟩).2 1 1 1 0
    (by with_unfolding_all decide) (by with_unfolding_all decide)
  by_cases hlt : sC7w.hit_count 1 1 0 + (m : ℤ) < 2147483648
  · exact hmono hlt
  · with_unfolding_all decide

end Supernova
